import Mathlib

/-!
Shallow embedding of the serial-device-emulator firmware (Yaesu CAT parser,
GS-232 rotator parser, NMEA generator, device manager) and proofs of the
stated properties.  Bytes on the wire are modelled as natural numbers
(ASCII codes); machine floats used by the rotation/position simulation are
modelled as exact rationals; C `uint8_t`/`uint32_t` arithmetic carries
explicit bounds where overflow matters.
-/

namespace SerEmu

/-! ### ASCII byte helpers (C `ctype` models) -/

/-- Model of C `toupper` restricted to ASCII. -/
def toupperB (c : Nat) : Nat := if 97 ≤ c ∧ c ≤ 122 then c - 32 else c

/-- Model of C `isspace` (ASCII): space or the control range 9..13. -/
def isSpaceB (c : Nat) : Bool := c = 32 || (9 ≤ c && c ≤ 13)

/-- ASCII decimal digit test. -/
def isDigitB (c : Nat) : Bool := 48 ≤ c && c ≤ 57

/-! ### Decimal formatting (models of `snprintf` integer conversions) -/

/-- Fuel-driven digit extraction (structural recursion so that concrete
instances evaluate inside the kernel); one fuel unit per emitted digit. -/
def decCharsGo : Nat → Nat → List Nat → List Nat
  | 0, _, acc => acc
  | fuel + 1, n, acc =>
    if n < 10 then (48 + n) :: acc
    else decCharsGo fuel (n / 10) ((48 + n % 10) :: acc)

/-- Decimal digit characters of `n`, most significant first, as produced by
`printf` style `%u` conversions (so `0` prints as the single byte `"0"`). -/
def decChars (n : Nat) : List Nat := decCharsGo (n + 1) n []

/-- Left-pad a byte list with ASCII `0` to width `w`
(the `0` flag of `printf` width specifiers). -/
def zeroPad (w : Nat) (s : List Nat) : List Nat :=
  List.replicate (w - s.length) 48 ++ s

/-- Model of `snprintf` with a `%0wu` conversion: zero-padded decimal. -/
def fmtU (w n : Nat) : List Nat := zeroPad w (decChars n)

/-- Model of `snprintf` with the `%+05d` conversion used by the IF response:
a forced sign byte followed by the absolute value zero-padded to 4 digits
(total width 5 for values up to 4 digits). -/
def fmtSigned5 (x : Int) : List Nat :=
  (if 0 ≤ x then 43 else 45) :: fmtU 4 x.natAbs

/-! ### Decimal parsing (models of C `strtoul` / `strtol` / `atoi`) -/

/-- Accumulate a run of leading ASCII digits into a natural number. -/
def digitsVal (s : List Nat) : Nat :=
  s.foldl (fun a c => a * 10 + (c - 48)) 0

/-- Model of C `strtoul(str, &endptr, 10)` on a 32-bit `unsigned long`
(all supported targets are 32-bit or AVR, where `unsigned long` is 32 bits):
skips leading whitespace, accepts one optional sign, consumes decimal
digits (saturating at `ULONG_MAX` on overflow; a minus sign negates in
unsigned arithmetic).  Returns the value together with the suffix that
`endptr` points at; when no digit was consumed, `endptr` is the original
string and the value is 0. -/
def strtoul10 (s : List Nat) : Nat × List Nat :=
  let s1 := s.dropWhile (fun c => isSpaceB c)
  let neg := s1.head? = some 45
  let s2 := if s1.head? = some 45 || s1.head? = some 43 then s1.tail else s1
  let ds := s2.takeWhile (fun c => isDigitB c)
  if ds = [] then
    (0, s)
  else
    let raw := digitsVal ds
    let v := min raw (2 ^ 32 - 1)
    (if neg then (2 ^ 32 - v) % 2 ^ 32 else v, s2.dropWhile (fun c => isDigitB c))

/-- Model of C `strtol(str, &endptr, 10)` as a mathematical integer value
(the strings handled by the parsers stay far from `long` overflow).
Returns `none` when no digit is consumed (C reports this by leaving
`endptr == str`), otherwise the value and the suffix at `endptr`. -/
def strtol10 (s : List Nat) : Option (Int × List Nat) :=
  let s1 := s.dropWhile (fun c => isSpaceB c)
  let neg := s1.head? = some 45
  let s2 := if s1.head? = some 45 || s1.head? = some 43 then s1.tail else s1
  let ds := s2.takeWhile (fun c => isDigitB c)
  if ds = [] then
    none
  else
    let raw : Int := digitsVal ds
    some (if neg then -raw else raw, s2.dropWhile (fun c => isDigitB c))

/-- Model of C `atoi` (value only, `strtol` semantics, 0 on no digits). -/
def atoiB (s : List Nat) : Int :=
  match strtol10 s with
  | none => 0
  | some r => r.1

/-- Model of the Arduino `constrain` macro on integers. -/
def constrainI (x lo hi : Int) : Int :=
  if x < lo then lo else if x > hi then hi else x

/-- Model of the Arduino `constrain` macro on rationals. -/
def constrainQ (x lo hi : ℚ) : ℚ :=
  if x < lo then lo else if x > hi then hi else x

/-! ### Facts about decimal formatting and parsing -/

theorem decCharsGo_eq_digits (fuel : Nat) :
    ∀ n acc, n < 10 ^ fuel → 1 ≤ fuel →
    decCharsGo fuel n acc =
      (if n = 0 then [48]
       else (Nat.digits 10 n).reverse.map (fun d => 48 + d)) ++ acc := by
  induction fuel with
  | zero =>
    intro n acc _ hf
    omega
  | succ f ih =>
    intro n acc h _
    by_cases hn : n < 10
    · show (if n < 10 then (48 + n) :: acc
          else decCharsGo f (n / 10) ((48 + n % 10) :: acc)) = _
      rw [if_pos hn]
      by_cases h0 : n = 0
      · simp [h0]
      · obtain ⟨m, rfl⟩ : ∃ m, n = m + 1 := ⟨n - 1, by omega⟩
        rw [if_neg h0]
        have hd : Nat.digits 10 (m + 1) = [(m + 1)] := by
          rw [Nat.digits_add_two_add_one]
          have h1 : (m + 1) / 10 = 0 := by omega
          rw [h1]
          have h2 : (m + 1) % 10 = m + 1 := by omega
          rw [h2]
          simp
        rw [hd]
        simp
    · show (if n < 10 then (48 + n) :: acc
          else decCharsGo f (n / 10) ((48 + n % 10) :: acc)) = _
      rw [if_neg hn]
      have hf1 : 1 ≤ f := by
        rcases Nat.eq_zero_or_pos f with rfl | hf
        · norm_num at h
          omega
        · exact hf
      have hq : n / 10 < 10 ^ f := by
        have hp : (10 : Nat) ^ (f + 1) = 10 * 10 ^ f := by ring
        omega
      rw [ih (n / 10) _ hq hf1]
      have hq0 : ¬ n / 10 = 0 := by omega
      rw [if_neg hq0, if_neg (by omega : ¬ n = 0)]
      obtain ⟨m, rfl⟩ : ∃ m, n = m + 1 := ⟨n - 1, by omega⟩
      rw [Nat.digits_add_two_add_one]
      simp

theorem decChars_eq_digits (n : Nat) :
    decChars n =
      if n = 0 then [48]
      else (Nat.digits 10 n).reverse.map (fun d => 48 + d) := by
  have hlt : n < 10 ^ (n + 1) := by
    calc n < 10 ^ n := Nat.lt_pow_self (by norm_num) n
    _ ≤ 10 ^ (n + 1) := Nat.pow_le_pow_right (by norm_num) (by omega)
  rw [decChars, decCharsGo_eq_digits (n + 1) n [] hlt (by omega)]
  simp

theorem decChars_digits {n c : Nat} (hc : c ∈ decChars n) : 48 ≤ c ∧ c ≤ 57 := by
  rw [decChars_eq_digits] at hc
  by_cases h0 : n = 0
  · simp [h0] at hc
    omega
  · simp [h0, List.mem_map, List.mem_reverse] at hc
    obtain ⟨d, hd, rfl⟩ := hc
    have := Nat.digits_lt_base (by norm_num) hd
    omega

theorem decChars_length_le {n k : Nat} (hn : n < 10 ^ k) (hk : 1 ≤ k) :
    (decChars n).length ≤ k := by
  rw [decChars_eq_digits]
  by_cases h0 : n = 0
  · simpa [h0] using hk
  · simp only [h0, if_false, List.length_map, List.length_reverse]
    by_contra h
    push_neg at h
    have h1 : 10 ^ (Nat.digits 10 n).length ≤ 10 * n :=
      Nat.base_pow_length_digits_le 10 n (by norm_num) h0
    have h2 : 10 ^ (k + 1) ≤ 10 ^ (Nat.digits 10 n).length :=
      Nat.pow_le_pow_right (by norm_num) h
    have h3 : 10 * n < 10 * 10 ^ k := by omega
    have h4 : (10 : Nat) ^ (k + 1) = 10 * 10 ^ k := by ring
    omega

theorem fmtU_length {w n : Nat} (hn : n < 10 ^ w) (hw : 1 ≤ w) :
    (fmtU w n).length = w := by
  have h := decChars_length_le hn hw
  simp [fmtU, zeroPad]
  omega

theorem fmtU_digits {w n c : Nat} (hc : c ∈ fmtU w n) : 48 ≤ c ∧ c ≤ 57 := by
  simp [fmtU, zeroPad, List.mem_append, List.mem_replicate] at hc
  rcases hc with ⟨-, rfl⟩ | hc
  · omega
  · exact decChars_digits hc

theorem digitsVal_append_digit (l : List Nat) (c : Nat) :
    digitsVal (l ++ [c]) = digitsVal l * 10 + (c - 48) := by
  simp [digitsVal]

theorem digitsVal_decChars_aux (l : List Nat) (a : Nat) (hl : ∀ d ∈ l, d < 10) :
    List.foldl (fun a c => a * 10 + (c - 48)) a (l.reverse.map (fun d => 48 + d)) =
      a * 10 ^ l.length + Nat.ofDigits 10 l := by
  induction l generalizing a with
  | nil => simp
  | cons d t ih =>
    have hd : d < 10 := hl d (by simp)
    have ht : ∀ x ∈ t, x < 10 := fun x hx => hl x (by simp [hx])
    simp only [List.reverse_cons, List.map_append, List.foldl_append, ih a ht,
      List.map_cons, List.map_nil, List.foldl_cons, List.foldl_nil,
      Nat.ofDigits_cons, List.length_cons]
    have : 48 + d - 48 = d := by omega
    rw [this]
    ring

theorem digitsVal_decChars (n : Nat) : digitsVal (decChars n) = n := by
  rw [decChars_eq_digits]
  unfold digitsVal
  by_cases h0 : n = 0
  · simp [h0]
  · simp only [h0, if_false]
    have := digitsVal_decChars_aux (Nat.digits 10 n) 0
      (fun d hd => Nat.digits_lt_base (by norm_num) hd)
    rw [this]
    simp [Nat.ofDigits_digits]

theorem digitsVal_zeroPad (w : Nat) (s : List Nat) :
    digitsVal (zeroPad w s) = digitsVal s := by
  unfold zeroPad digitsVal
  rw [List.foldl_append]
  congr 1
  induction (w - s.length) with
  | zero => simp
  | succ k ih => simpa [List.replicate_succ] using ih

theorem digitsVal_fmtU (w n : Nat) : digitsVal (fmtU w n) = n := by
  rw [fmtU, digitsVal_zeroPad, digitsVal_decChars]

/-! ### Yaesu CAT radio state (`YaesuState.h`) -/

/-- Frequency bounds from `YaesuState.h` (`FREQ_MIN` / `FREQ_MAX`, Hz). -/
def FREQ_MIN : Nat := 30000

/-- Upper frequency bound (470 MHz). -/
def FREQ_MAX : Nat := 470000000

/-- State of the emulated FT-991A.  VFO selection and operating modes keep
the numeric values of the C enums (`YaesuVFO`: 0 = A, 1 = B; `YaesuMode`:
1..14).  Frequencies are `uint32_t` Hz; RIT/XIT offsets are `int16_t`. -/
structure YaesuState where
  freqVfoA : Nat
  freqVfoB : Nat
  currentVfo : Nat
  modeVfoA : Nat
  modeVfoB : Nat
  ptt : Bool
  powerOn : Bool
  ritOn : Bool
  xitOn : Bool
  ritOffset : Int
  xitOffset : Int
  smeter : Nat
  powerMeter : Nat
  swrMeter : Nat
  alcMeter : Nat
  compMeter : Nat
  squelch : Nat
  afGain : Nat
  rfGain : Nat
deriving DecidableEq, Repr

namespace YaesuState

/-- Defaults assigned by `YaesuState::reset`. -/
def reset : YaesuState where
  freqVfoA := 14074000
  freqVfoB := 7074000
  currentVfo := 0
  modeVfoA := 2
  modeVfoB := 2
  ptt := false
  powerOn := true
  ritOn := false
  xitOn := false
  ritOffset := 0
  xitOffset := 0
  smeter := 0
  powerMeter := 0
  swrMeter := 0
  alcMeter := 0
  compMeter := 0
  squelch := 50
  afGain := 128
  rfGain := 255

/-- Frequency of the currently selected VFO. -/
def getCurrentFreq (s : YaesuState) : Nat :=
  if s.currentVfo = 0 then s.freqVfoA else s.freqVfoB

/-- Mode of the currently selected VFO. -/
def getCurrentMode (s : YaesuState) : Nat :=
  if s.currentVfo = 0 then s.modeVfoA else s.modeVfoB

/-- Set the mode of the currently selected VFO. -/
def setCurrentMode (s : YaesuState) (m : Nat) : YaesuState :=
  if s.currentVfo = 0 then { s with modeVfoA := m } else { s with modeVfoB := m }

end YaesuState

/-! ### Yaesu CAT parser (`CATParser.cpp`)

Each handler takes the parameter bytes and the radio state and returns the
new state together with the bytes written to the serial port
(`sendResponse` appends the `;` terminator, byte 59). -/

/-- Model of `CATParser::parseFrequency`: `strtoul`, an `endptr` check
(rest empty or pointing at the `;` terminator) and the range check. -/
def parseFrequency (s : List Nat) : Option Nat :=
  let r := strtoul10 s
  let endOk : Bool := match r.2 with
    | [] => true
    | c :: _ => c = 59
  if !endOk then none
  else if r.1 < FREQ_MIN || r.1 > FREQ_MAX then none
  else some r.1

/-- Decimal rendering of a C `int` under `%d` (sign byte for negatives). -/
def decCharsI (x : Int) : List Nat :=
  if x < 0 then 45 :: decChars x.natAbs else decChars x.natAbs

/-- Handler for `FA`: read or set the VFO-A frequency. -/
def handleFA (params : List Nat) (s : YaesuState) : YaesuState × List Nat :=
  if params.length = 0 then
    (s, [70, 65] ++ fmtU 9 s.freqVfoA ++ [59])
  else
    match parseFrequency params with
    | some f => ({ s with freqVfoA := f }, [])
    | none => (s, [])

/-- Handler for `FB`: read or set the VFO-B frequency. -/
def handleFB (params : List Nat) (s : YaesuState) : YaesuState × List Nat :=
  if params.length = 0 then
    (s, [70, 66] ++ fmtU 9 s.freqVfoB ++ [59])
  else
    match parseFrequency params with
    | some f => ({ s with freqVfoB := f }, [])
    | none => (s, [])

/-- Handler for `IF` (read-only composite information response,
`IF%09lu%+05d0%02d0000000000`). -/
def handleIF (_params : List Nat) (s : YaesuState) : YaesuState × List Nat :=
  let ritOff : Int := if s.ritOn then s.ritOffset else 0
  (s, [73, 70] ++ fmtU 9 s.getCurrentFreq ++ fmtSigned5 ritOff ++ [48] ++
      fmtU 2 s.getCurrentMode ++ List.replicate 10 48 ++ [59])

/-- Handler for `ID` (read-only, literal `ID0670;`). -/
def handleID (_params : List Nat) (s : YaesuState) : YaesuState × List Nat :=
  (s, [73, 68, 48, 54, 55, 48, 59])

/-- Handler for `MD`: read or set the current VFO mode. -/
def handleMD (params : List Nat) (s : YaesuState) : YaesuState × List Nat :=
  if params.length = 0 then
    (s, [77, 68, 48] ++ decChars s.getCurrentMode ++ [59])
  else if params.length ≥ 2 then
    let m : Int := (params.getD 1 0 : Int) - 48
    if 1 ≤ m ∧ m ≤ 14 then (s.setCurrentMode m.toNat, []) else (s, [])
  else (s, [])

/-- Handler for `PS`: read or set the power flag. -/
def handlePS (params : List Nat) (s : YaesuState) : YaesuState × List Nat :=
  if params.length = 0 then
    (s, [80, 83, if s.powerOn then 49 else 48, 59])
  else
    ({ s with powerOn := params.getD 0 0 = 49 }, [])

/-- Handler for `SM` (read-only S-meter, `SM0%03d`). -/
def handleSM (_params : List Nat) (s : YaesuState) : YaesuState × List Nat :=
  (s, [83, 77, 48] ++ fmtU 3 s.smeter ++ [59])

/-- Handler for `TX`: read or set PTT. -/
def handleTX (params : List Nat) (s : YaesuState) : YaesuState × List Nat :=
  if params.length = 0 then
    (s, [84, 88, if s.ptt then 49 else 48, 59])
  else
    ({ s with ptt := params.getD 0 0 ≠ 48 }, [])

/-- Handler for `RX` (always clears PTT, no response). -/
def handleRX (_params : List Nat) (s : YaesuState) : YaesuState × List Nat :=
  ({ s with ptt := false }, [])

/-- Handler for `VS`: read or set the current VFO. -/
def handleVS (params : List Nat) (s : YaesuState) : YaesuState × List Nat :=
  if params.length = 0 then
    (s, [86, 83] ++ decChars s.currentVfo ++ [59])
  else
    ({ s with currentVfo := if params.getD 0 0 = 48 then 0 else 1 }, [])

/-- Handler for `RI`: read or set the RIT flag. -/
def handleRI (params : List Nat) (s : YaesuState) : YaesuState × List Nat :=
  if params.length = 0 then
    (s, [82, 73, if s.ritOn then 49 else 48, 59])
  else
    ({ s with ritOn := params.getD 0 0 = 49 }, [])

/-- Handler for `XT`: read or set the XIT flag. -/
def handleXT (params : List Nat) (s : YaesuState) : YaesuState × List Nat :=
  if params.length = 0 then
    (s, [88, 84, if s.xitOn then 49 else 48, 59])
  else
    ({ s with xitOn := params.getD 0 0 = 49 }, [])

/-- Handler for `RD`: absolute RIT offset (4+ digits) or default -10 step. -/
def handleRD (params : List Nat) (s : YaesuState) : YaesuState × List Nat :=
  if params.length ≥ 4 then
    ({ s with ritOffset := constrainI (atoiB params) (-9999) 9999 }, [])
  else
    ({ s with ritOffset := constrainI (s.ritOffset - 10) (-9999) 9999 }, [])

/-- Handler for `RU`: absolute RIT offset (4+ digits) or default +10 step. -/
def handleRU (params : List Nat) (s : YaesuState) : YaesuState × List Nat :=
  if params.length ≥ 4 then
    ({ s with ritOffset := constrainI (atoiB params) (-9999) 9999 }, [])
  else
    ({ s with ritOffset := constrainI (s.ritOffset + 10) (-9999) 9999 }, [])

/-- Handler for `AG`: read AF gain or set it with clamping to 0..255. -/
def handleAG (params : List Nat) (s : YaesuState) : YaesuState × List Nat :=
  if params.length = 0 ∨ params.length = 1 then
    (s, [65, 71, 48] ++ fmtU 3 s.afGain ++ [59])
  else if params.length ≥ 4 then
    ({ s with afGain := (constrainI (atoiB params.tail) 0 255).toNat }, [])
  else (s, [])

/-- Handler for `RG`: read RF gain or set it with clamping to 0..255. -/
def handleRG (params : List Nat) (s : YaesuState) : YaesuState × List Nat :=
  if params.length = 0 ∨ params.length = 1 then
    (s, [82, 71, 48] ++ fmtU 3 s.rfGain ++ [59])
  else if params.length ≥ 4 then
    ({ s with rfGain := (constrainI (atoiB params.tail) 0 255).toNat }, [])
  else (s, [])

/-- Handler for `SQ`: read squelch or set it with clamping to 0..100. -/
def handleSQ (params : List Nat) (s : YaesuState) : YaesuState × List Nat :=
  if params.length = 0 ∨ params.length = 1 then
    (s, [83, 81, 48] ++ fmtU 3 s.squelch ++ [59])
  else if params.length ≥ 4 then
    ({ s with squelch := (constrainI (atoiB params.tail) 0 100).toNat }, [])
  else (s, [])

/-- Handler for `RM` (read meter `RM%d%03d`). -/
def handleRM (params : List Nat) (s : YaesuState) : YaesuState × List Nat :=
  let meter : Int := if params.length ≥ 1 then (params.getD 0 0 : Int) - 48 else 1
  let value : Nat :=
    if meter = 1 then s.smeter
    else if meter = 2 then s.powerMeter
    else if meter = 3 then s.swrMeter
    else if meter = 4 then s.alcMeter
    else if meter = 5 then s.compMeter
    else 0
  (s, [82, 77] ++ decCharsI meter ++ fmtU 3 value ++ [59])

/-- Model of `CATParser::processCommand`: the two leading bytes select the
handler; commands shorter than 2 bytes and unknown commands are dropped. -/
def processCatCommand (buf : List Nat) (s : YaesuState) : YaesuState × List Nat :=
  if buf.length < 2 then (s, [])
  else
    let cmd := buf.take 2
    let params := buf.drop 2
    if cmd = [70, 65] then handleFA params s
    else if cmd = [70, 66] then handleFB params s
    else if cmd = [73, 70] then handleIF params s
    else if cmd = [73, 68] then handleID params s
    else if cmd = [77, 68] then handleMD params s
    else if cmd = [80, 83] then handlePS params s
    else if cmd = [83, 77] then handleSM params s
    else if cmd = [84, 88] then handleTX params s
    else if cmd = [82, 88] then handleRX params s
    else if cmd = [86, 83] then handleVS params s
    else if cmd = [82, 73] then handleRI params s
    else if cmd = [88, 84] then handleXT params s
    else if cmd = [82, 68] then handleRD params s
    else if cmd = [82, 85] then handleRU params s
    else if cmd = [65, 71] then handleAG params s
    else if cmd = [82, 71] then handleRG params s
    else if cmd = [83, 81] then handleSQ params s
    else if cmd = [82, 77] then handleRM params s
    else (s, [])

/-- CAT parser state: input buffer (capacity `CAT_BUFFER_SIZE` = 64, so at
most 63 buffered bytes), radio state and bytes written so far. -/
structure CatParser where
  buffer : List Nat
  st : YaesuState
  out : List Nat
deriving DecidableEq, Repr

/-- One iteration of the `CATParser::update` read loop on input byte `c`:
terminator processes the framed command, control bytes are skipped, other
bytes are upper-cased and buffered, and a full buffer is discarded. -/
def catStep (p : CatParser) (c : Nat) : CatParser :=
  if c = 59 then
    if p.buffer.length > 0 then
      let r := processCatCommand p.buffer p.st
      { buffer := [], st := r.1, out := p.out ++ r.2 }
    else
      { p with buffer := [] }
  else if c < 32 then p
  else if p.buffer.length < 63 then
    { p with buffer := p.buffer ++ [toupperB c] }
  else
    { p with buffer := [] }

/-- Drain a list of available serial bytes through the CAT parser. -/
def catFeed (input : List Nat) (p : CatParser) : CatParser :=
  input.foldl catStep p

/-! ### Lemmas about the CAT byte loop and frequency parsing -/

theorem catStep_plain (p : CatParser) (c : Nat) (hc : 48 ≤ c ∧ c ≤ 57)
    (hlen : p.buffer.length < 63) :
    catStep p c = { p with buffer := p.buffer ++ [c] } := by
  have h1 : ¬ c = 59 := by omega
  have h2 : ¬ c < 32 := by omega
  have h3 : toupperB c = c := by
    unfold toupperB
    rw [if_neg]
    omega
  simp [catStep, h1, h2, h3, hlen]

theorem catFeed_digits (ds : List Nat) (p : CatParser)
    (hd : ∀ c ∈ ds, 48 ≤ c ∧ c ≤ 57)
    (hlen : p.buffer.length + ds.length ≤ 63) :
    catFeed ds p = { p with buffer := p.buffer ++ ds } := by
  induction ds generalizing p with
  | nil => simp [catFeed]
  | cons c t ih =>
    have hc : 48 ≤ c ∧ c ≤ 57 := hd c (by simp)
    have hstep := catStep_plain p c hc (by simp at hlen; omega)
    have ht : ∀ x ∈ t, 48 ≤ x ∧ x ≤ 57 := fun x hx => hd x (by simp [hx])
    calc catFeed (c :: t) p = catFeed t (catStep p c) := by
          simp [catFeed]
      _ = catFeed t { p with buffer := p.buffer ++ [c] } := by rw [hstep]
      _ = { p with buffer := p.buffer ++ c :: t } := by
          rw [ih _ ht (by simp at hlen ⊢; omega)]
          simp

theorem dropWhile_space_digits (l : List Nat) (hd : ∀ c ∈ l, 48 ≤ c ∧ c ≤ 57) :
    l.dropWhile (fun c => isSpaceB c) = l := by
  cases l with
  | nil => rfl
  | cons c t =>
    have hc := hd c (by simp)
    rw [List.dropWhile_cons, if_neg]
    simp [isSpaceB]
    omega

theorem dropWhile_digit_digits (l : List Nat) (hd : ∀ c ∈ l, 48 ≤ c ∧ c ≤ 57) :
    l.dropWhile (fun c => isDigitB c) = [] := by
  induction l with
  | nil => rfl
  | cons c t ih =>
    have hc := hd c (by simp)
    rw [List.dropWhile_cons, if_pos]
    · exact ih (fun x hx => hd x (by simp [hx]))
    · simp [isDigitB]
      omega

theorem takeWhile_digit_digits (l : List Nat) (hd : ∀ c ∈ l, 48 ≤ c ∧ c ≤ 57) :
    l.takeWhile (fun c => isDigitB c) = l := by
  have h := List.takeWhile_append_dropWhile (p := fun c => isDigitB c) (l := l)
  rw [dropWhile_digit_digits l hd] at h
  simpa using h

theorem strtoul10_digits (l : List Nat) (hne : l ≠ [])
    (hd : ∀ c ∈ l, 48 ≤ c ∧ c ≤ 57) :
    strtoul10 l = (min (digitsVal l) (2 ^ 32 - 1), []) := by
  obtain ⟨c, t, rfl⟩ : ∃ c t, l = c :: t := by
    cases l with
    | nil => exact absurd rfl hne
    | cons c t => exact ⟨c, t, rfl⟩
  have hc := hd c (by simp)
  have hsign : (decide ((c :: t).head? = some 45) ||
      decide ((c :: t).head? = some 43)) = false := by
    simp
    omega
  have hne2 : c :: t ≠ [] := by simp
  simp only [strtoul10, dropWhile_space_digits _ hd, hsign, Bool.false_eq_true,
    if_false, takeWhile_digit_digits _ hd, dropWhile_digit_digits _ hd,
    if_neg hne2]
  rw [if_neg (by simp only [List.head?_cons, Option.some.injEq]; omega)]

theorem parseFrequency_fmtU {f : Nat} (h1 : FREQ_MIN ≤ f) (h2 : f ≤ FREQ_MAX) :
    parseFrequency (fmtU 9 f) = some f := by
  have hf9 : f < 10 ^ 9 := by
    unfold FREQ_MAX at h2
    omega
  have hlen : (fmtU 9 f).length = 9 := fmtU_length hf9 (by norm_num)
  have hne : fmtU 9 f ≠ [] := by
    intro h
    rw [h] at hlen
    simp at hlen
  have hstr := strtoul10_digits (fmtU 9 f) hne (fun c hc => fmtU_digits hc)
  rw [digitsVal_fmtU] at hstr
  have hmin : min f (2 ^ 32 - 1) = f := by
    unfold FREQ_MAX at h2
    omega
  rw [hmin] at hstr
  unfold parseFrequency
  rw [hstr]
  have hlo : ¬ f < FREQ_MIN := by omega
  have hhi : ¬ f > FREQ_MAX := by omega
  simp [hlo, hhi]

/-! ### C1: FA write-then-read round-trip -/

/-- C1: for every frequency `f` with `FREQ_MIN ≤ f ≤ FREQ_MAX`, feeding the
CAT parser `FA` + the 9-digit zero-padded decimal of `f` + `;`, then `FA;`,
writes exactly `FA` + the same 9 digits + `;` to the serial port. -/
theorem c1_fa_roundtrip (s0 : YaesuState) (f : Nat)
    (h1 : FREQ_MIN ≤ f) (h2 : f ≤ FREQ_MAX) :
    (catFeed ([70, 65] ++ fmtU 9 f ++ [59] ++ [70, 65, 59])
        ⟨[], s0, []⟩).out = [70, 65] ++ fmtU 9 f ++ [59] := by
  have hf9 : f < 10 ^ 9 := by
    unfold FREQ_MAX at h2
    omega
  have hlen : (fmtU 9 f).length = 9 := fmtU_length hf9 (by norm_num)
  have hA : catFeed [70, 65] (⟨[], s0, []⟩ : CatParser) = ⟨[70, 65], s0, []⟩ := by
    simp [catFeed, catStep, toupperB]
  have hD : catFeed (fmtU 9 f) (⟨[70, 65], s0, []⟩ : CatParser)
      = ⟨[70, 65] ++ fmtU 9 f, s0, []⟩ := by
    rw [catFeed_digits _ _ (fun c hc => fmtU_digits hc) (by simp [hlen])]
  have hproc : processCatCommand ([70, 65] ++ fmtU 9 f) s0
      = ({ s0 with freqVfoA := f }, []) := by
    have hbl : ([70, 65] ++ fmtU 9 f).length = 11 := by simp [hlen]
    unfold processCatCommand
    rw [if_neg (by omega)]
    simp only [List.take_append_eq_append_take, List.drop_append_eq_append_drop]
    norm_num
    unfold handleFA
    rw [if_neg (by omega), parseFrequency_fmtU h1 h2]
  have hT : catStep (⟨[70, 65] ++ fmtU 9 f, s0, []⟩ : CatParser) 59
      = ⟨[], { s0 with freqVfoA := f }, []⟩ := by
    unfold catStep
    rw [if_pos rfl, if_pos (by simp [hlen])]
    rw [hproc]
    simp
  have hread : catFeed [70, 65, 59] (⟨[], { s0 with freqVfoA := f }, []⟩ : CatParser)
      = ⟨[], { s0 with freqVfoA := f }, [70, 65] ++ fmtU 9 f ++ [59]⟩ := by
    simp [catFeed, catStep, toupperB, processCatCommand, handleFA]
  calc (catFeed ([70, 65] ++ fmtU 9 f ++ [59] ++ [70, 65, 59]) ⟨[], s0, []⟩).out
      = (catFeed [70, 65, 59] (catStep (catFeed (fmtU 9 f)
          (catFeed [70, 65] ⟨[], s0, []⟩)) 59)).out := by
        simp [catFeed, List.foldl_append]
    _ = [70, 65] ++ fmtU 9 f ++ [59] := by
        rw [hA, hD, hT, hread]

/-- C1 witness at `f = 14074000` from the reset state. -/
theorem c1_fa_roundtrip_witness :
    FREQ_MIN ≤ 14074000 ∧ (14074000 : Nat) ≤ FREQ_MAX ∧
    (catFeed ([70, 65] ++ fmtU 9 14074000 ++ [59] ++ [70, 65, 59])
        ⟨[], YaesuState.reset, []⟩).out = [70, 65] ++ fmtU 9 14074000 ++ [59] :=
  ⟨by norm_num [FREQ_MIN], by norm_num [FREQ_MAX],
    c1_fa_roundtrip YaesuState.reset 14074000 (by norm_num [FREQ_MIN])
      (by norm_num [FREQ_MAX])⟩

/-! ### C8: frequency rejection vs gain/squelch clamping -/

theorem parseFrequency_out_of_range (params : List Nat)
    (h : (strtoul10 params).1 < FREQ_MIN ∨ FREQ_MAX < (strtoul10 params).1) :
    parseFrequency params = none := by
  simp only [parseFrequency]
  split
  · rfl
  · rw [if_pos]
    simp only [Bool.or_eq_true, decide_eq_true_eq]
    exact h

/-- C8 (amended): an FA write whose parameter fails `strtoul`-based parsing
(no digits consumed, or a byte other than the terminator follows the
number) or parses out of `[FREQ_MIN, FREQ_MAX]` leaves VFO-A exactly
unchanged and produces no response; AG/RG/SQ writes with a 4+ byte
parameter clamp the `atoi` value into 0..255 / 0..255 / 0..100; and the
concrete command `FA000029999;` leaves the radio state unchanged. -/
theorem c8_fa_reject_gain_clamp :
    (∀ params s, params ≠ [] → parseFrequency params = none →
        handleFA params s = (s, [])) ∧
    (∀ params s, params ≠ [] →
        ((strtoul10 params).1 < FREQ_MIN ∨ FREQ_MAX < (strtoul10 params).1) →
        handleFA params s = (s, [])) ∧
    (∀ params s, 4 ≤ params.length →
        handleAG params s =
          ({ s with afGain := (constrainI (atoiB params.tail) 0 255).toNat }, [])) ∧
    (∀ params s, 4 ≤ params.length →
        handleRG params s =
          ({ s with rfGain := (constrainI (atoiB params.tail) 0 255).toNat }, [])) ∧
    (∀ params s, 4 ≤ params.length →
        handleSQ params s =
          ({ s with squelch := (constrainI (atoiB params.tail) 0 100).toNat }, [])) ∧
    (∀ s, catFeed [70, 65, 48, 48, 48, 48, 50, 57, 57, 57, 57, 59]
        ⟨[], s, []⟩ = ⟨[], s, []⟩) := by
  refine ⟨?_, ?_, ?_, ?_, ?_, ?_⟩
  · intro params s hne hnone
    unfold handleFA
    rw [if_neg (by simpa using hne), hnone]
  · intro params s hne hrange
    unfold handleFA
    rw [if_neg (by simpa using hne), parseFrequency_out_of_range params hrange]
  · intro params s h
    unfold handleAG
    rw [if_neg (by omega), if_pos h]
  · intro params s h
    unfold handleRG
    rw [if_neg (by omega), if_pos h]
  · intro params s h
    unfold handleSQ
    rw [if_neg (by omega), if_pos h]
  · intro s
    simp [catFeed, catStep, toupperB, processCatCommand, handleFA,
      parseFrequency, strtoul10, isSpaceB, isDigitB, digitsVal,
      FREQ_MIN, FREQ_MAX]

/-- C8 counterexample to the claim as stated: the parameter string
`" 30000001"` (space then 8 digits) is not entirely numeric, yet feeding
`FA 30000001;` changes the VFO-A frequency — `strtoul` skips leading
whitespace, so "not entirely numeric" parameters are not always
rejected. -/
theorem c8_counterexample :
    (¬ ∀ c ∈ ([32, 51, 48, 48, 48, 48, 48, 48, 49] : List Nat),
        48 ≤ c ∧ c ≤ 57) ∧
    catFeed [70, 65, 32, 51, 48, 48, 48, 48, 48, 48, 49, 59]
        ⟨[], YaesuState.reset, []⟩
      = ⟨[], { YaesuState.reset with freqVfoA := 30000001 }, []⟩ ∧
    YaesuState.reset.freqVfoA ≠ 30000001 :=
  ⟨by decide, by decide, by decide⟩

/-- C8 witness: the unparsable parameter `"A"` leaves the state unchanged. -/
theorem c8_fa_reject_gain_clamp_witness :
    ([65] : List Nat) ≠ [] ∧ parseFrequency [65] = none ∧
    handleFA [65] YaesuState.reset = (YaesuState.reset, []) :=
  ⟨by decide, by decide,
    c8_fa_reject_gain_clamp.1 [65] YaesuState.reset (by decide) (by decide)⟩

/-! ### G-5500 rotator state (`G5500State.h`)

Positions are C `float`s advanced by exact arithmetic in the simulation
formulas; they are modelled as exact rationals. -/

/-- Rotation direction (`RotationDir`). -/
inductive RotDir where
  | stopped
  | cw
  | ccw
deriving DecidableEq, Repr

/-- Rotator state (`G5500State`). -/
structure G5500St where
  azimuth : ℚ
  elevation : ℚ
  targetAzimuth : ℚ
  targetElevation : ℚ
  azRotation : RotDir
  elRotation : RotDir
  azGotoMode : Bool
  elGotoMode : Bool
  lastUpdateMs : Nat
deriving DecidableEq, Repr

namespace G5500St

/-- Defaults assigned by `G5500State::reset`. -/
def reset : G5500St where
  azimuth := 0
  elevation := 0
  targetAzimuth := 0
  targetElevation := 0
  azRotation := .stopped
  elRotation := .stopped
  azGotoMode := false
  elGotoMode := false
  lastUpdateMs := 0

/-- C truncation of a rational toward zero (`(int)` cast). -/
def truncQ (q : ℚ) : Int := if 0 ≤ q then ⌊q⌋ else ⌈q⌉

/-- Protocol integer azimuth, `(int)(azimuth + 0.5f)`. -/
def getAzimuthInt (s : G5500St) : Int := truncQ (s.azimuth + 1 / 2)

/-- Protocol integer elevation, `(int)(elevation + 0.5f)`. -/
def getElevationInt (s : G5500St) : Int := truncQ (s.elevation + 1 / 2)

/-- Stop azimuth rotation and leave goto mode. -/
def stopAzimuth (s : G5500St) : G5500St :=
  { s with azRotation := .stopped, azGotoMode := false }

/-- Stop elevation rotation and leave goto mode. -/
def stopElevation (s : G5500St) : G5500St :=
  { s with elRotation := .stopped, elGotoMode := false }

/-- Stop both axes. -/
def stopAll (s : G5500St) : G5500St := s.stopAzimuth.stopElevation

/-- Manual clockwise azimuth rotation. -/
def rotateCW (s : G5500St) : G5500St :=
  { s with azRotation := .cw, azGotoMode := false }

/-- Manual counter-clockwise azimuth rotation. -/
def rotateCCW (s : G5500St) : G5500St :=
  { s with azRotation := .ccw, azGotoMode := false }

/-- Manual upward elevation rotation. -/
def rotateUp (s : G5500St) : G5500St :=
  { s with elRotation := .cw, elGotoMode := false }

/-- Manual downward elevation rotation. -/
def rotateDown (s : G5500St) : G5500St :=
  { s with elRotation := .ccw, elGotoMode := false }

/-- Start a goto-azimuth move (`G5500State::gotoAzimuth`): the target is
constrained to [0, 450], goto mode is set, and the direction comes from
the sign of (target − current); an already-reached target stops at once. -/
def gotoAzimuth (s : G5500St) (target : ℚ) : G5500St :=
  let t := constrainQ target 0 450
  if t > s.azimuth then
    { s with targetAzimuth := t, azGotoMode := true, azRotation := .cw }
  else if t < s.azimuth then
    { s with targetAzimuth := t, azGotoMode := true, azRotation := .ccw }
  else
    { s with targetAzimuth := t, azGotoMode := false, azRotation := .stopped }

/-- Start a goto-elevation move (`G5500State::gotoElevation`). -/
def gotoElevation (s : G5500St) (target : ℚ) : G5500St :=
  let t := constrainQ target 0 180
  if t > s.elevation then
    { s with targetElevation := t, elGotoMode := true, elRotation := .cw }
  else if t < s.elevation then
    { s with targetElevation := t, elGotoMode := true, elRotation := .ccw }
  else
    { s with targetElevation := t, elGotoMode := false, elRotation := .stopped }

end G5500St

/-! ### GS-232 parser (`GS232Parser.cpp`) -/

/-- Model of `GS232Parser::parseAngle`: reject the empty string, skip
leading spaces, then `strtol`; fails exactly when no digit is consumed. -/
def parseAngle (s : List Nat) : Option Int :=
  if s = [] then none
  else
    let s1 := s.dropWhile (fun c => c = 32)
    match strtol10 s1 with
    | none => none
    | some r => some r.1

/-- Azimuth field of a `W` command: the bytes before the first space,
truncated to 7 bytes (`strncpy` into `char azStr[8]`). -/
def wAzField (params : List Nat) : List Nat :=
  (params.takeWhile (fun c => c ≠ 32)).take 7

/-- Elevation field of a `W` command: the bytes after the first space. -/
def wElField (params : List Nat) : List Nat :=
  (params.dropWhile (fun c => c ≠ 32)).tail

/-- Handler for `M<angle>` (`GS232Parser::handleM`): goto azimuth after
parse and range validation; invalid commands change nothing. -/
def handleM (params : List Nat) (s : G5500St) : G5500St :=
  match parseAngle params with
  | none => s
  | some a =>
    if a < 0 ∨ a > 450 then s
    else s.gotoAzimuth (a : ℚ)

/-- Handler for `W<az> <el>` (`GS232Parser::handleW`): both fields are
parsed and range-checked before any state change. -/
def handleW (params : List Nat) (s : G5500St) : G5500St :=
  if ¬ params.contains 32 then s
  else
    match parseAngle (wAzField params) with
    | none => s
    | some az =>
      match parseAngle (wElField params) with
      | none => s
      | some el =>
        if az < 0 ∨ az > 450 then s
        else if el < 0 ∨ el > 180 then s
        else (s.gotoAzimuth (az : ℚ)).gotoElevation (el : ℚ)

/-- Fixed-width `%03d` rendering used by position responses. -/
def fmtD3 (x : Int) : List Nat :=
  if x < 0 then 45 :: zeroPad 2 (decChars x.natAbs) else fmtU 3 x.toNat

/-- Model of `GS232Parser::processCommand` on a framed command buffer;
responses (`C`, `C2`, `B`) carry the CR LF appended by `sendResponse`. -/
def processGs232Command (buf : List Nat) (s : G5500St) : G5500St × List Nat :=
  match buf with
  | [] => (s, [])
  | c :: rest =>
    if c = 82 then (s.rotateCW, [])
    else if c = 76 then (s.rotateCCW, [])
    else if c = 65 then (s.stopAzimuth, [])
    else if c = 85 then (s.rotateUp, [])
    else if c = 68 then (s.rotateDown, [])
    else if c = 69 then (s.stopElevation, [])
    else if c = 83 then (s.stopAll, [])
    else if c = 67 then
      if buf.length ≥ 2 ∧ buf.getD 1 0 = 50 then
        (s, [43, 48] ++ fmtD3 s.getAzimuthInt ++ [32, 43, 48] ++
            fmtD3 s.getElevationInt ++ [13, 10])
      else
        (s, [43, 48] ++ fmtD3 s.getAzimuthInt ++ [13, 10])
    else if c = 66 then
      (s, [43, 48] ++ fmtD3 s.getElevationInt ++ [13, 10])
    else if c = 77 then (handleM rest s, [])
    else if c = 87 then (handleW rest s, [])
    else (s, [])

/-! ### C7: malformed or out-of-range M / W commands change nothing -/

/-- C7: a framed `M` or `W` command whose numeric field does not parse
(no digits; for `W` also a missing space separator) or whose parsed
azimuth is outside [0, 450] or parsed elevation outside [0, 180] leaves
the whole rotator state exactly unchanged and produces no output — in
particular a `W` with valid azimuth but bad elevation changes neither
axis. -/
theorem c7_invalid_goto_unchanged :
    (∀ params s, (parseAngle params = none ∨
        (∃ a, parseAngle params = some a ∧ (a < 0 ∨ 450 < a))) →
      processGs232Command (77 :: params) s = (s, [])) ∧
    (∀ params s, (¬ params.contains 32 ∨
        parseAngle (wAzField params) = none ∨
        parseAngle (wElField params) = none ∨
        (∃ a, parseAngle (wAzField params) = some a ∧ (a < 0 ∨ 450 < a)) ∨
        (∃ e, parseAngle (wElField params) = some e ∧ (e < 0 ∨ 180 < e))) →
      processGs232Command (87 :: params) s = (s, [])) := by
  constructor
  · intro params s h
    have hM : handleM params s = s := by
      unfold handleM
      rcases h with h | ⟨a, ha, hr⟩
      · rw [h]
      · have hout : a < 0 ∨ a > 450 := by omega
        simp [ha, hout]
    simp [processGs232Command, hM]
  · intro params s h
    have hW : handleW params s = s := by
      unfold handleW
      by_cases hc : ¬ params.contains 32
      · rw [if_pos hc]
      · rw [if_neg hc]
        rcases h with h | h | h | ⟨a, ha, hr⟩ | ⟨e, he, hr⟩
        · exact absurd h hc
        · simp [h]
        · cases haz : parseAngle (wAzField params) with
          | none => rfl
          | some az => simp [h]
        · have hout : a < 0 ∨ a > 450 := by omega
          cases hel : parseAngle (wElField params) with
          | none => simp [ha]
          | some el => simp [ha, hout]
        · have hout : e < 0 ∨ e > 180 := by omega
          cases haz : parseAngle (wAzField params) with
          | none => rfl
          | some az =>
            by_cases hazr : az < 0 ∨ az > 450
            · simp [he, hazr]
            · simp [he, hazr, hout]
    simp [processGs232Command, hW]

/-- C7 witness: `M999` (azimuth out of range) leaves the reset state
unchanged. -/
theorem c7_invalid_goto_unchanged_witness :
    (parseAngle [57, 57, 57] = none ∨
      (∃ a, parseAngle [57, 57, 57] = some a ∧ (a < 0 ∨ 450 < a))) ∧
    processGs232Command [77, 57, 57, 57] G5500St.reset = (G5500St.reset, []) :=
  ⟨Or.inr ⟨999, by decide, by decide⟩,
    c7_invalid_goto_unchanged.1 [57, 57, 57] G5500St.reset
      (Or.inr ⟨999, by decide, by decide⟩)⟩

/-! ### Rotation simulation (`G5500Device::simulateRotation`) -/

/-- Azimuth half of `simulateRotation`, applied to the position increment
`azDelta = azSpeed * deltaSec`: integrate along the active direction,
clamp to the goto target the moment it is reached or overshot, and
otherwise clamp at the hard range bound (0 / 450) and stop there. -/
def azPhase (s : G5500St) (azDelta : ℚ) : G5500St :=
  match s.azRotation with
  | .stopped => s
  | .cw =>
    let a1 := s.azimuth + azDelta
    let s1 :=
      if s.azGotoMode ∧ a1 ≥ s.targetAzimuth then
        { s with azimuth := s.targetAzimuth, azRotation := .stopped,
                 azGotoMode := false }
      else
        { s with azimuth := a1 }
    if s1.azimuth > 450 then
      { s1 with azimuth := 450, azRotation := .stopped, azGotoMode := false }
    else s1
  | .ccw =>
    let a1 := s.azimuth - azDelta
    let s1 :=
      if s.azGotoMode ∧ a1 ≤ s.targetAzimuth then
        { s with azimuth := s.targetAzimuth, azRotation := .stopped,
                 azGotoMode := false }
      else
        { s with azimuth := a1 }
    if s1.azimuth < 0 then
      { s1 with azimuth := 0, azRotation := .stopped, azGotoMode := false }
    else s1

/-- Elevation half of `simulateRotation` (bounds 0 / 180). -/
def elPhase (s : G5500St) (elDelta : ℚ) : G5500St :=
  match s.elRotation with
  | .stopped => s
  | .cw =>
    let e1 := s.elevation + elDelta
    let s1 :=
      if s.elGotoMode ∧ e1 ≥ s.targetElevation then
        { s with elevation := s.targetElevation, elRotation := .stopped,
                 elGotoMode := false }
      else
        { s with elevation := e1 }
    if s1.elevation > 180 then
      { s1 with elevation := 180, elRotation := .stopped, elGotoMode := false }
    else s1
  | .ccw =>
    let e1 := s.elevation - elDelta
    let s1 :=
      if s.elGotoMode ∧ e1 ≤ s.targetElevation then
        { s with elevation := s.targetElevation, elRotation := .stopped,
                 elGotoMode := false }
      else
        { s with elevation := e1 }
    if s1.elevation < 0 then
      { s1 with elevation := 0, elRotation := .stopped, elGotoMode := false }
    else s1

/-- One call of `G5500Device::simulateRotation` at wall time `now`:
elapsed times below the 10 ms minimum are skipped without consuming time;
otherwise the per-axis integrators run on `speed * deltaSec`. -/
def simulateRotation (azSpeed elSpeed : ℚ) (now : Nat) (s : G5500St) :
    G5500St :=
  let deltaMs := now - s.lastUpdateMs
  if deltaMs < 10 then s
  else
    let deltaSec : ℚ := (deltaMs : ℚ) / 1000
    elPhase (azPhase { s with lastUpdateMs := now } (azSpeed * deltaSec))
      (elSpeed * deltaSec)

/-- Repeated `update()` calls at the given wall-clock instants. -/
def runRotation (azSpeed elSpeed : ℚ) (times : List Nat) (s : G5500St) :
    G5500St :=
  times.foldl (fun st t => simulateRotation azSpeed elSpeed t st) s

/-- The update instants are increasing with at least the 10 ms minimum
integration interval between consecutive calls. -/
def stepsOK : Nat → List Nat → Prop
  | _, [] => True
  | last, t :: r => last + 10 ≤ t ∧ stepsOK t r

/-- The azimuth axis has come to rest exactly on `tgt`. -/
def azDone (tgt : ℚ) (s : G5500St) : Prop :=
  s.azimuth = tgt ∧ s.azRotation = .stopped ∧ s.azGotoMode = false

/-- The azimuth axis is in goto mode moving clockwise toward `tgt`. -/
def azMovingCW (tgt : ℚ) (s : G5500St) : Prop :=
  s.targetAzimuth = tgt ∧ s.azGotoMode = true ∧ s.azRotation = .cw ∧
    s.azimuth < tgt

/-- The azimuth axis is in goto mode moving counter-clockwise toward
`tgt`. -/
def azMovingCCW (tgt : ℚ) (s : G5500St) : Prop :=
  s.targetAzimuth = tgt ∧ s.azGotoMode = true ∧ s.azRotation = .ccw ∧
    tgt < s.azimuth

theorem azPhase_stopped (s : G5500St) (d : ℚ) (h : s.azRotation = .stopped) :
    azPhase s d = s := by
  unfold azPhase
  rw [h]

theorem elPhase_az_fields (s : G5500St) (d : ℚ) :
    (elPhase s d).azimuth = s.azimuth ∧
    (elPhase s d).azRotation = s.azRotation ∧
    (elPhase s d).azGotoMode = s.azGotoMode ∧
    (elPhase s d).targetAzimuth = s.targetAzimuth ∧
    (elPhase s d).lastUpdateMs = s.lastUpdateMs := by
  unfold elPhase
  cases h : s.elRotation <;> simp <;> split_ifs <;> simp

theorem azPhase_lastUpdateMs (s : G5500St) (d : ℚ) :
    (azPhase s d).lastUpdateMs = s.lastUpdateMs := by
  unfold azPhase
  cases h : s.azRotation <;> simp <;> split_ifs <;> simp

theorem azPhase_cw_step (tgt : ℚ) (s : G5500St) (d : ℚ)
    (htgt : tgt ≤ 450) (h : azMovingCW tgt s) :
    (azDone tgt (azPhase s d) ∧ tgt ≤ s.azimuth + d) ∨
    (azMovingCW tgt (azPhase s d) ∧ (azPhase s d).azimuth = s.azimuth + d) := by
  obtain ⟨ht, hg, hr, hle⟩ := h
  obtain ⟨az, el, taz, tel, azr, elr, azg, elg, lu⟩ := s
  dsimp only at ht hg hr hle ⊢
  subst ht hg hr
  by_cases hreach : taz ≤ az + d
  · left
    have e : azPhase ⟨az, el, taz, tel, .cw, elr, true, elg, lu⟩ d
        = ⟨taz, el, taz, tel, .stopped, elr, false, elg, lu⟩ := by
      unfold azPhase
      dsimp only
      rw [if_pos (show (true = true) ∧ az + d ≥ taz from ⟨rfl, hreach⟩)]
      dsimp only
      rw [if_neg (show ¬ taz > 450 from by linarith)]
    rw [e]
    exact ⟨⟨rfl, rfl, rfl⟩, hreach⟩
  · right
    have hlt : az + d < taz := lt_of_not_le hreach
    have e : azPhase ⟨az, el, taz, tel, .cw, elr, true, elg, lu⟩ d
        = ⟨az + d, el, taz, tel, .cw, elr, true, elg, lu⟩ := by
      unfold azPhase
      dsimp only
      rw [if_neg (show ¬ ((true = true) ∧ az + d ≥ taz) from fun hc => hreach hc.2)]
      dsimp only
      rw [if_neg (show ¬ az + d > 450 from by linarith)]
    rw [e]
    exact ⟨⟨rfl, rfl, rfl, hlt⟩, rfl⟩

theorem azPhase_ccw_step (tgt : ℚ) (s : G5500St) (d : ℚ)
    (htgt : 0 ≤ tgt) (h : azMovingCCW tgt s) :
    (azDone tgt (azPhase s d) ∧ s.azimuth - d ≤ tgt) ∨
    (azMovingCCW tgt (azPhase s d) ∧ (azPhase s d).azimuth = s.azimuth - d) := by
  obtain ⟨ht, hg, hr, hle⟩ := h
  obtain ⟨az, el, taz, tel, azr, elr, azg, elg, lu⟩ := s
  dsimp only at ht hg hr hle ⊢
  subst ht hg hr
  by_cases hreach : az - d ≤ taz
  · left
    have e : azPhase ⟨az, el, taz, tel, .ccw, elr, true, elg, lu⟩ d
        = ⟨taz, el, taz, tel, .stopped, elr, false, elg, lu⟩ := by
      unfold azPhase
      dsimp only
      rw [if_pos (show (true = true) ∧ az - d ≤ taz from ⟨rfl, hreach⟩)]
      dsimp only
      rw [if_neg (show ¬ taz < 0 from by linarith)]
    rw [e]
    exact ⟨⟨rfl, rfl, rfl⟩, hreach⟩
  · right
    have hlt : taz < az - d := lt_of_not_le hreach
    have e : azPhase ⟨az, el, taz, tel, .ccw, elr, true, elg, lu⟩ d
        = ⟨az - d, el, taz, tel, .ccw, elr, true, elg, lu⟩ := by
      unfold azPhase
      dsimp only
      rw [if_neg (show ¬ ((true = true) ∧ az - d ≤ taz) from fun hc => hreach hc.2)]
      dsimp only
      rw [if_neg (show ¬ az - d < 0 from by linarith)]
    rw [e]
    exact ⟨⟨rfl, rfl, rfl, hlt⟩, rfl⟩

theorem simulateRotation_step (azS elS : ℚ) (t : Nat) (s : G5500St)
    (h10 : s.lastUpdateMs + 10 ≤ t) :
    simulateRotation azS elS t s =
      elPhase (azPhase { s with lastUpdateMs := t }
        (azS * ((t - s.lastUpdateMs : Nat) : ℚ) / 1000))
        (elS * ((t - s.lastUpdateMs : Nat) : ℚ) / 1000) := by
  unfold simulateRotation
  rw [if_neg (by omega)]
  ring_nf

theorem azDone_simulate (azS elS : ℚ) (tgt : ℚ) (t : Nat) (s : G5500St)
    (h : azDone tgt s) : azDone tgt (simulateRotation azS elS t s) := by
  obtain ⟨ha, hr, hg⟩ := h
  by_cases hc : t - s.lastUpdateMs < 10
  · have e : simulateRotation azS elS t s = s := by
      unfold simulateRotation
      rw [if_pos hc]
    rw [e]
    exact ⟨ha, hr, hg⟩
  · have e : simulateRotation azS elS t s =
        elPhase (azPhase { s with lastUpdateMs := t }
          (azS * (((t - s.lastUpdateMs : Nat) : ℚ) / 1000)))
          (elS * (((t - s.lastUpdateMs : Nat) : ℚ) / 1000)) := by
      unfold simulateRotation
      rw [if_neg hc]
    have hstop : ({ s with lastUpdateMs := t } : G5500St).azRotation
        = .stopped := hr
    rw [e, azPhase_stopped _ _ hstop]
    obtain ⟨e1, e2, e3, -, -⟩ := elPhase_az_fields
      { s with lastUpdateMs := t } (elS * (((t - s.lastUpdateMs : Nat) : ℚ) / 1000))
    exact ⟨by rw [e1]; exact ha, by rw [e2]; exact hr, by rw [e3]; exact hg⟩

theorem runRotation_cons (azS elS : ℚ) (t : Nat) (r : List Nat) (s : G5500St) :
    runRotation azS elS (t :: r) s =
      runRotation azS elS r (simulateRotation azS elS t s) := rfl

theorem azDone_run (azS elS : ℚ) (tgt : ℚ) (times : List Nat) :
    ∀ s : G5500St, azDone tgt s → azDone tgt (runRotation azS elS times s) := by
  induction times with
  | nil => exact fun s h => h
  | cons t r ih =>
    intro s h
    rw [runRotation_cons]
    exact ih _ (azDone_simulate azS elS tgt t s h)

theorem stepsOK_getLastD {last : Nat} {times : List Nat}
    (h : stepsOK last times) : last ≤ times.getLastD last := by
  induction times generalizing last with
  | nil => simp
  | cons t r ih =>
    obtain ⟨h10, hr⟩ := h
    have := ih hr
    rw [List.getLastD_cons]
    omega

theorem simulate_lastUpdateMs (azS elS : ℚ) (t : Nat) (s : G5500St)
    (h10 : s.lastUpdateMs + 10 ≤ t) :
    (simulateRotation azS elS t s).lastUpdateMs = t := by
  rw [simulateRotation_step azS elS t s h10]
  obtain ⟨-, -, -, -, e5⟩ := elPhase_az_fields
    (azPhase { s with lastUpdateMs := t }
      (azS * ((t - s.lastUpdateMs : Nat) : ℚ) / 1000))
    (elS * ((t - s.lastUpdateMs : Nat) : ℚ) / 1000)
  rw [e5, azPhase_lastUpdateMs]

theorem run_cw (azS elS : ℚ) (tgt : ℚ) (htgt : tgt ≤ 450)
    (times : List Nat) : ∀ s : G5500St, stepsOK s.lastUpdateMs times →
    azMovingCW tgt s →
    azDone tgt (runRotation azS elS times s) ∨
    (azMovingCW tgt (runRotation azS elS times s) ∧
      tgt - (runRotation azS elS times s).azimuth ≤
        (tgt - s.azimuth) -
          azS * ((times.getLastD s.lastUpdateMs - s.lastUpdateMs : Nat) : ℚ)
            / 1000) := by
  induction times with
  | nil =>
    intro s _ hmov
    right
    refine ⟨hmov, ?_⟩
    simp [runRotation]
  | cons t r ih =>
    intro s hsteps hmov
    obtain ⟨h10, hr⟩ := hsteps
    set δ : ℚ := ((t - s.lastUpdateMs : Nat) : ℚ) / 1000 with hδ
    have hδpos : 0 < δ := by
      rw [hδ]
      have : (10 : ℚ) ≤ ((t - s.lastUpdateMs : Nat) : ℚ) := by
        have : 10 ≤ t - s.lastUpdateMs := by omega
        exact_mod_cast this
      linarith
    have hmov' : azMovingCW tgt { s with lastUpdateMs := t } := hmov
    have hstep := azPhase_cw_step tgt { s with lastUpdateMs := t } (azS * δ)
      htgt hmov'
    have hel := elPhase_az_fields
      (azPhase { s with lastUpdateMs := t } (azS * δ)) (elS * δ)
    have hsim : simulateRotation azS elS t s =
        elPhase (azPhase { s with lastUpdateMs := t } (azS * δ)) (elS * δ) := by
      rw [simulateRotation_step azS elS t s h10, hδ]
      ring_nf
    rw [runRotation_cons, List.getLastD_cons]
    rcases hstep with ⟨hdone, hreach⟩ | ⟨hmov2, hpos⟩
    · left
      apply azDone_run
      rw [hsim]
      exact ⟨by rw [hel.1]; exact hdone.1, by rw [hel.2.1]; exact hdone.2.1,
        by rw [hel.2.2.1]; exact hdone.2.2⟩
    · have hmov3 : azMovingCW tgt (simulateRotation azS elS t s) := by
        rw [hsim]
        exact ⟨by rw [hel.2.2.2.1]; exact hmov2.1, by rw [hel.2.2.1]; exact hmov2.2.1,
          by rw [hel.2.1]; exact hmov2.2.2.1, by rw [hel.1]; exact hmov2.2.2.2⟩
      have haz : (simulateRotation azS elS t s).azimuth = s.azimuth + azS * δ := by
        rw [hsim, hel.1, hpos]
      have hlast : (simulateRotation azS elS t s).lastUpdateMs = t :=
        simulate_lastUpdateMs azS elS t s h10
      have hsteps2 : stepsOK (simulateRotation azS elS t s).lastUpdateMs r := by
        rw [hlast]
        exact hr
      rcases ih (simulateRotation azS elS t s) hsteps2 hmov3 with hd | ⟨hm, hineq⟩
      · left
        exact hd
      · right
        refine ⟨hm, ?_⟩
        rw [hlast] at hineq
        have htle : t ≤ r.getLastD t := stepsOK_getLastD hr
        have hsplit : (r.getLastD t - s.lastUpdateMs : Nat)
            = (r.getLastD t - t) + (t - s.lastUpdateMs) := by omega
        have hcast : ((r.getLastD t - s.lastUpdateMs : Nat) : ℚ)
            = ((r.getLastD t - t : Nat) : ℚ) + ((t - s.lastUpdateMs : Nat) : ℚ) := by
          rw [hsplit]
          push_cast
          ring
        rw [haz] at hineq
        rw [hcast]
        have hdB : azS * δ = azS * ((t - s.lastUpdateMs : Nat) : ℚ) / 1000 := by
          rw [hδ]
          ring
        have hdist : azS * (((r.getLastD t - t : Nat) : ℚ) +
            ((t - s.lastUpdateMs : Nat) : ℚ)) / 1000
            = azS * ((r.getLastD t - t : Nat) : ℚ) / 1000 +
              azS * ((t - s.lastUpdateMs : Nat) : ℚ) / 1000 := by
          ring
        rw [hdist]
        linarith [hineq, hdB]

theorem run_ccw (azS elS : ℚ) (tgt : ℚ) (htgt : 0 ≤ tgt)
    (times : List Nat) : ∀ s : G5500St, stepsOK s.lastUpdateMs times →
    azMovingCCW tgt s →
    azDone tgt (runRotation azS elS times s) ∨
    (azMovingCCW tgt (runRotation azS elS times s) ∧
      (runRotation azS elS times s).azimuth - tgt ≤
        (s.azimuth - tgt) -
          azS * ((times.getLastD s.lastUpdateMs - s.lastUpdateMs : Nat) : ℚ)
            / 1000) := by
  induction times with
  | nil =>
    intro s _ hmov
    right
    refine ⟨hmov, ?_⟩
    simp [runRotation]
  | cons t r ih =>
    intro s hsteps hmov
    obtain ⟨h10, hr⟩ := hsteps
    set δ : ℚ := ((t - s.lastUpdateMs : Nat) : ℚ) / 1000 with hδ
    have hδpos : 0 < δ := by
      rw [hδ]
      have : (10 : ℚ) ≤ ((t - s.lastUpdateMs : Nat) : ℚ) := by
        have : 10 ≤ t - s.lastUpdateMs := by omega
        exact_mod_cast this
      linarith
    have hmov' : azMovingCCW tgt { s with lastUpdateMs := t } := hmov
    have hstep := azPhase_ccw_step tgt { s with lastUpdateMs := t } (azS * δ)
      htgt hmov'
    have hel := elPhase_az_fields
      (azPhase { s with lastUpdateMs := t } (azS * δ)) (elS * δ)
    have hsim : simulateRotation azS elS t s =
        elPhase (azPhase { s with lastUpdateMs := t } (azS * δ)) (elS * δ) := by
      rw [simulateRotation_step azS elS t s h10, hδ]
      ring_nf
    rw [runRotation_cons, List.getLastD_cons]
    rcases hstep with ⟨hdone, hreach⟩ | ⟨hmov2, hpos⟩
    · left
      apply azDone_run
      rw [hsim]
      exact ⟨by rw [hel.1]; exact hdone.1, by rw [hel.2.1]; exact hdone.2.1,
        by rw [hel.2.2.1]; exact hdone.2.2⟩
    · have hmov3 : azMovingCCW tgt (simulateRotation azS elS t s) := by
        rw [hsim]
        exact ⟨by rw [hel.2.2.2.1]; exact hmov2.1, by rw [hel.2.2.1]; exact hmov2.2.1,
          by rw [hel.2.1]; exact hmov2.2.2.1, by rw [hel.1]; exact hmov2.2.2.2⟩
      have haz : (simulateRotation azS elS t s).azimuth = s.azimuth - azS * δ := by
        rw [hsim, hel.1, hpos]
      have hlast : (simulateRotation azS elS t s).lastUpdateMs = t :=
        simulate_lastUpdateMs azS elS t s h10
      have hsteps2 : stepsOK (simulateRotation azS elS t s).lastUpdateMs r := by
        rw [hlast]
        exact hr
      rcases ih (simulateRotation azS elS t s) hsteps2 hmov3 with hd | ⟨hm, hineq⟩
      · left
        exact hd
      · right
        refine ⟨hm, ?_⟩
        rw [hlast] at hineq
        have htle : t ≤ r.getLastD t := stepsOK_getLastD hr
        have hsplit : (r.getLastD t - s.lastUpdateMs : Nat)
            = (r.getLastD t - t) + (t - s.lastUpdateMs) := by omega
        have hcast : ((r.getLastD t - s.lastUpdateMs : Nat) : ℚ)
            = ((r.getLastD t - t : Nat) : ℚ) + ((t - s.lastUpdateMs : Nat) : ℚ) := by
          rw [hsplit]
          push_cast
          ring
        rw [haz] at hineq
        rw [hcast]
        have hdB : azS * δ = azS * ((t - s.lastUpdateMs : Nat) : ℚ) / 1000 := by
          rw [hδ]
          ring
        have hdist : azS * (((r.getLastD t - t : Nat) : ℚ) +
            ((t - s.lastUpdateMs : Nat) : ℚ)) / 1000
            = azS * ((r.getLastD t - t : Nat) : ℚ) / 1000 +
              azS * ((t - s.lastUpdateMs : Nat) : ℚ) / 1000 := by
          ring
        rw [hdist]
        linarith [hineq, hdB]

theorem processM225 (s : G5500St) :
    processGs232Command [77, 50, 50, 53] s = (s.gotoAzimuth 225, []) := by
  have hp : parseAngle [50, 50, 53] = some 225 := by decide
  simp [processGs232Command, handleM, hp]

theorem gotoAzimuth_fields (s : G5500St) (q : ℚ) :
    (s.gotoAzimuth q).azimuth = s.azimuth ∧
    (s.gotoAzimuth q).lastUpdateMs = s.lastUpdateMs := by
  simp only [G5500St.gotoAzimuth]
  split_ifs <;> exact ⟨rfl, rfl⟩

theorem gotoAzimuth_225_cw (s : G5500St) (h : s.azimuth < 225) :
    azMovingCW 225 (s.gotoAzimuth 225) := by
  have hc : constrainQ 225 0 450 = 225 := by norm_num [constrainQ]
  unfold G5500St.gotoAzimuth
  rw [hc, if_pos (show (225 : ℚ) > s.azimuth from h)]
  exact ⟨rfl, rfl, rfl, h⟩

theorem gotoAzimuth_225_done (s : G5500St) (h : s.azimuth = 225) :
    azDone 225 (s.gotoAzimuth 225) := by
  have hc : constrainQ 225 0 450 = 225 := by norm_num [constrainQ]
  unfold G5500St.gotoAzimuth
  rw [hc, if_neg (show ¬ (225 : ℚ) > s.azimuth from by rw [h]; norm_num),
    if_neg (show ¬ (225 : ℚ) < s.azimuth from by rw [h]; norm_num)]
  exact ⟨h, rfl, rfl⟩

theorem gotoAzimuth_225_ccw (s : G5500St) (h : 225 < s.azimuth) :
    azMovingCCW 225 (s.gotoAzimuth 225) := by
  have hc : constrainQ 225 0 450 = 225 := by norm_num [constrainQ]
  unfold G5500St.gotoAzimuth
  rw [hc, if_neg (show ¬ (225 : ℚ) > s.azimuth from by linarith),
    if_pos (show (225 : ℚ) < s.azimuth from h)]
  exact ⟨rfl, rfl, rfl, h⟩

/-! ### C4: `M225` goto converges exactly to 225 and stops -/

/-- C4: from any initial azimuth in [0, 450] and any positive azimuth
speed, after processing the framed command `M225` and then calling
update/simulateRotation at instants spaced by at least the 10 ms minimum
whose total elapsed time is at least `|225 − initial| / azSpeed` seconds,
the azimuth is exactly 225, the azimuth direction is stopped, and the
azimuth goto-mode flag is clear. -/
theorem c4_m225_converges (s : G5500St) (azSpeed elSpeed : ℚ)
    (times : List Nat)
    (hlo : 0 ≤ s.azimuth) (hhi : s.azimuth ≤ 450)
    (hspeed : 0 < azSpeed)
    (hsteps : stepsOK s.lastUpdateMs times)
    (helapsed : |225 - s.azimuth| / azSpeed ≤
      ((times.getLastD s.lastUpdateMs - s.lastUpdateMs : Nat) : ℚ) / 1000) :
    (runRotation azSpeed elSpeed times
        (processGs232Command [77, 50, 50, 53] s).1).azimuth = 225 ∧
    (runRotation azSpeed elSpeed times
        (processGs232Command [77, 50, 50, 53] s).1).azRotation = .stopped ∧
    (runRotation azSpeed elSpeed times
        (processGs232Command [77, 50, 50, 53] s).1).azGotoMode = false := by
  rw [processM225]
  show azDone 225 (runRotation azSpeed elSpeed times (s.gotoAzimuth 225))
  obtain ⟨haz1, hlast1⟩ := gotoAzimuth_fields s 225
  have hsteps1 : stepsOK (s.gotoAzimuth 225).lastUpdateMs times := by
    rw [hlast1]
    exact hsteps
  set T : ℚ :=
    ((times.getLastD s.lastUpdateMs - s.lastUpdateMs : Nat) : ℚ) with hT
  rcases lt_trichotomy s.azimuth 225 with hlt | heq | hgt
  · have habs : |225 - s.azimuth| = 225 - s.azimuth :=
      abs_of_nonneg (by linarith)
    rw [habs] at helapsed
    have hmul : 225 - s.azimuth ≤ T / 1000 * azSpeed :=
      (div_le_iff₀ hspeed).mp helapsed
    rcases run_cw azSpeed elSpeed 225 (by norm_num) times (s.gotoAzimuth 225)
        hsteps1 (gotoAzimuth_225_cw s hlt) with hdone | ⟨hm, hineq⟩
    · exact hdone
    · exfalso
      rw [haz1, hlast1] at hineq
      have hfaz : (runRotation azSpeed elSpeed times
          (s.gotoAzimuth 225)).azimuth < 225 := hm.2.2.2
      have hring : T / 1000 * azSpeed = azSpeed * T / 1000 := by ring
      rw [hring] at hmul
      rw [← hT] at hineq
      linarith
  · exact azDone_run azSpeed elSpeed 225 times _ (gotoAzimuth_225_done s heq)
  · have habs : |225 - s.azimuth| = s.azimuth - 225 := by
      rw [abs_of_nonpos (by linarith)]
      ring
    rw [habs] at helapsed
    have hmul : s.azimuth - 225 ≤ T / 1000 * azSpeed :=
      (div_le_iff₀ hspeed).mp helapsed
    rcases run_ccw azSpeed elSpeed 225 (by norm_num) times (s.gotoAzimuth 225)
        hsteps1 (gotoAzimuth_225_ccw s hgt) with hdone | ⟨hm, hineq⟩
    · exact hdone
    · exfalso
      rw [haz1, hlast1] at hineq
      have hfaz : 225 < (runRotation azSpeed elSpeed times
          (s.gotoAzimuth 225)).azimuth := hm.2.2.2
      have hring : T / 1000 * azSpeed = azSpeed * T / 1000 := by ring
      rw [hring] at hmul
      rw [← hT] at hineq
      linarith

/-- C4 witness: from the reset state (azimuth 0) with azimuth speed 2 °/s,
one update 115 s later (115 s ≥ 225/2 s) lands exactly on 225, stopped. -/
theorem c4_m225_converges_witness :
    (0 : ℚ) ≤ G5500St.reset.azimuth ∧ G5500St.reset.azimuth ≤ 450 ∧
    (0 : ℚ) < 2 ∧ stepsOK G5500St.reset.lastUpdateMs [115000] ∧
    |225 - G5500St.reset.azimuth| / 2 ≤
      ((List.getLastD [115000] G5500St.reset.lastUpdateMs -
        G5500St.reset.lastUpdateMs : Nat) : ℚ) / 1000 ∧
    (runRotation 2 1 [115000]
        (processGs232Command [77, 50, 50, 53] G5500St.reset).1).azimuth = 225 ∧
    (runRotation 2 1 [115000]
        (processGs232Command [77, 50, 50, 53] G5500St.reset).1).azRotation
      = .stopped ∧
    (runRotation 2 1 [115000]
        (processGs232Command [77, 50, 50, 53] G5500St.reset).1).azGotoMode
      = false := by
  have hsteps : stepsOK G5500St.reset.lastUpdateMs [115000] :=
    ⟨by norm_num [G5500St.reset], trivial⟩
  have habs : |(225 : ℚ) - G5500St.reset.azimuth| = 225 := by
    norm_num [G5500St.reset]
  have helapsed : |225 - G5500St.reset.azimuth| / 2 ≤
      ((List.getLastD [115000] G5500St.reset.lastUpdateMs -
        G5500St.reset.lastUpdateMs : Nat) : ℚ) / 1000 := by
    rw [habs]
    norm_num [G5500St.reset]
  obtain ⟨h1, h2, h3⟩ := c4_m225_converges G5500St.reset 2 1 [115000]
    (by norm_num [G5500St.reset]) (by norm_num [G5500St.reset])
    (by norm_num) hsteps helapsed
  exact ⟨by norm_num [G5500St.reset], by norm_num [G5500St.reset],
    by norm_num, hsteps, helapsed, h1, h2, h3⟩

/-! ### NMEA GPS state (`NMEAGPSState.h`)

Floats (position, speed, DOP) are modelled as exact rationals; the
simulated satellites-in-view list carries (PRN, elevation, azimuth, SNR)
tuples, with `numSatsInView` as its length (capacity 12). -/

/-- GPS state (`NMEAGPSState`). -/
structure NMEAGPSState where
  latitude : ℚ
  longitude : ℚ
  altitude : ℚ
  geoidSep : ℚ
  speedKnots : ℚ
  courseTrue : ℚ
  courseMag : ℚ
  fixQuality : Nat
  fixMode : Nat
  numSatellites : Nat
  pdop : ℚ
  hdop : ℚ
  vdop : ℚ
  sats : List (Nat × Nat × Nat × Nat)
  hour : Nat
  minute : Nat
  second : Nat
  day : Nat
  month : Nat
  year : Nat
  magVariation : ℚ
  lastOutputMs : Nat
deriving DecidableEq, Repr

namespace NMEAGPSState

/-- The fixed simulated constellation set up by `initSatellites`. -/
def initSats : List (Nat × Nat × Nat × Nat) :=
  [(2, 45, 120, 42), (5, 67, 230, 45), (9, 23, 45, 38), (12, 34, 315, 40),
   (15, 56, 180, 44), (18, 12, 90, 35), (21, 78, 270, 47), (25, 41, 150, 41)]

/-- Defaults assigned by `NMEAGPSState::reset` (position San Francisco,
8 satellites, 12:00:00 on 2025-01-01). -/
def reset : NMEAGPSState where
  latitude := 377749 / 10000
  longitude := -1224194 / 10000
  altitude := 10
  geoidSep := -34
  speedKnots := 0
  courseTrue := 0
  courseMag := 0
  fixQuality := 1
  fixMode := 3
  numSatellites := 8
  pdop := 15 / 10
  hdop := 1
  vdop := 12 / 10
  sats := initSats
  hour := 12
  minute := 0
  second := 0
  day := 1
  month := 1
  year := 2025
  magVariation := 13
  lastOutputMs := 0

/-- `NMEAGPSState::hasValidFix`. -/
def hasValidFix (s : NMEAGPSState) : Prop := s.fixQuality > 0

/-- Model of `NMEAGPSState::advanceTime`: one-second tick with cascading
rollover; the time fields are `uint8_t` (`uint16_t` for the year), so each
increment carries its machine modulus, and the day rolls from 28 to 1 for
every month. -/
def advanceTime (s : NMEAGPSState) : NMEAGPSState :=
  let sec := (s.second + 1) % 256
  if sec ≥ 60 then
    let min := (s.minute + 1) % 256
    if min ≥ 60 then
      let hr := (s.hour + 1) % 256
      if hr ≥ 24 then
        let d := (s.day + 1) % 256
        if d > 28 then
          let mo := (s.month + 1) % 256
          if mo > 12 then
            { s with second := 0, minute := 0, hour := 0, day := 1,
                     month := 1, year := (s.year + 1) % 65536 }
          else
            { s with second := 0, minute := 0, hour := 0, day := 1,
                     month := mo }
        else
          { s with second := 0, minute := 0, hour := 0, day := d }
      else
        { s with second := 0, minute := 0, hour := hr }
    else
      { s with second := 0, minute := min }
  else
    { s with second := sec }

end NMEAGPSState

/-! ### C6: the simulated clock ticks exactly one second -/

/-- A well-formed simulated clock value: field ranges of the 28-day-month
simplified calendar. -/
def clockWF (s : NMEAGPSState) : Prop :=
  s.second < 60 ∧ s.minute < 60 ∧ s.hour < 24 ∧
    1 ≤ s.day ∧ s.day ≤ 28 ∧ 1 ≤ s.month ∧ s.month ≤ 12

instance (s : NMEAGPSState) : Decidable (clockWF s) := by
  unfold clockWF
  infer_instance

/-- Total seconds represented by a clock value in the simplified calendar
(every month 28 days): a bijective mixed-radix encoding of the six time
fields on well-formed states. -/
def timeIndex (s : NMEAGPSState) : Nat :=
  ((((s.year * 12 + (s.month - 1)) * 28 + (s.day - 1)) * 24 + s.hour) * 60 +
    s.minute) * 60 + s.second

/-- C6: each `advanceTime` call advances a well-formed simulated clock by
exactly one second in the fixed-28-day-month calendar (cascading
second/minute/hour/day/month/year rollover, day rolling 28 → 1 for every
month), keeps it well formed, and changes no non-time field. -/
theorem c6_advance_time_one_second (s : NMEAGPSState) (h : clockWF s)
    (hy : s.year ≤ 65534) :
    timeIndex (s.advanceTime) = timeIndex s + 1 ∧ clockWF s.advanceTime ∧
    (s.advanceTime).latitude = s.latitude ∧
    (s.advanceTime).longitude = s.longitude ∧
    (s.advanceTime).sats = s.sats ∧
    (s.advanceTime).fixQuality = s.fixQuality ∧
    (s.advanceTime).lastOutputMs = s.lastOutputMs := by
  obtain ⟨h1, h2, h3, h4, h5, h6, h7⟩ := h
  unfold NMEAGPSState.advanceTime
  by_cases c1 : (s.second + 1) % 256 ≥ 60
  · rw [if_pos c1]
    by_cases c2 : (s.minute + 1) % 256 ≥ 60
    · rw [if_pos c2]
      by_cases c3 : (s.hour + 1) % 256 ≥ 24
      · rw [if_pos c3]
        by_cases c4 : (s.day + 1) % 256 > 28
        · rw [if_pos c4]
          by_cases c5 : (s.month + 1) % 256 > 12
          · rw [if_pos c5]
            refine ⟨?_, ?_, rfl, rfl, rfl, rfl, rfl⟩
            · unfold timeIndex
              dsimp only
              omega
            · unfold clockWF
              dsimp only
              omega
          · rw [if_neg c5]
            refine ⟨?_, ?_, rfl, rfl, rfl, rfl, rfl⟩
            · unfold timeIndex
              dsimp only
              omega
            · unfold clockWF
              dsimp only
              omega
        · rw [if_neg c4]
          refine ⟨?_, ?_, rfl, rfl, rfl, rfl, rfl⟩
          · unfold timeIndex
            dsimp only
            omega
          · unfold clockWF
            dsimp only
            omega
      · rw [if_neg c3]
        refine ⟨?_, ?_, rfl, rfl, rfl, rfl, rfl⟩
        · unfold timeIndex
          dsimp only
          omega
        · unfold clockWF
          dsimp only
          omega
    · rw [if_neg c2]
      refine ⟨?_, ?_, rfl, rfl, rfl, rfl, rfl⟩
      · unfold timeIndex
        dsimp only
        omega
      · unfold clockWF
        dsimp only
        omega
  · rw [if_neg c1]
    refine ⟨?_, ?_, rfl, rfl, rfl, rfl, rfl⟩
    · unfold timeIndex
      dsimp only
      omega
    · unfold clockWF
      dsimp only
      omega

/-- C6 witness: the full cascade 2025-12-28 23:59:59 → 2026-01-01
00:00:00. -/
theorem c6_advance_time_one_second_witness :
    clockWF { NMEAGPSState.reset with
      second := 59, minute := 59, hour := 23, day := 28, month := 12 } ∧
    ({ NMEAGPSState.reset with
      second := 59, minute := 59, hour := 23, day := 28,
      month := 12 } : NMEAGPSState).year ≤ 65534 ∧
    timeIndex ({ NMEAGPSState.reset with
        second := 59, minute := 59, hour := 23, day := 28,
        month := 12 } : NMEAGPSState).advanceTime
      = timeIndex ({ NMEAGPSState.reset with
        second := 59, minute := 59, hour := 23, day := 28,
        month := 12 } : NMEAGPSState) + 1 :=
  ⟨by decide, by decide,
    (c6_advance_time_one_second _ (by decide) (by decide)).1⟩

/-! ### NMEA generator (`NMEAGenerator.cpp`)

Sentence bodies are byte lists.  The `dtostrf`/`%.1f` float conversions
are not embeddable; their outputs enter as abstract pre-formatted byte
strings (a `FloatStrs` record), constrained only to contain no `*` byte —
true of every `dtostrf` output, which consists of digits, `.`, `-` and
spaces.  All integer conversions are modelled exactly. -/

/-- Loop of `NMEAGenerator::calculateChecksum`: XOR bytes until `*`. -/
def checksumGo : List Nat → Nat → Nat
  | [], acc => acc
  | c :: t, acc => if c = 42 then acc else checksumGo t (Nat.xor acc c)

/-- Model of `calculateChecksum`: skip a leading `$`, then XOR all bytes
up to `*` or the end of the sentence. -/
def calculateChecksum (s : List Nat) : Nat :=
  checksumGo (if s.head? = some 36 then s.tail else s) 0

/-- Upper-case hexadecimal digit byte (`%X`). -/
def hexDigit (d : Nat) : Nat := if d < 10 then 48 + d else 55 + d

/-- Two-byte `%02X` rendering (checksums are below 256). -/
def hexPair (c : Nat) : List Nat := [hexDigit (c / 16), hexDigit (c % 16)]

/-- Model of `sendSentence`: append `*`, the `%02X` checksum and CR LF,
then write the result to the serial port. -/
def sendSentence (s : List Nat) : List Nat :=
  s ++ [42] ++ hexPair (calculateChecksum s) ++ [13, 10]

/-- Abstract pre-formatted float fields of one output cycle. -/
structure FloatStrs where
  latS : List Nat
  lonS : List Nat
  hdopS : List Nat
  altS : List Nat
  geoidS : List Nat
  speedS : List Nat
  courseTS : List Nat
  courseMS : List Nat
  magS : List Nat
  pdopS : List Nat
  vdopS : List Nat
  speedKmS : List Nat
deriving DecidableEq, Repr

/-- A byte string with no `*` (42) byte. -/
def starFree (l : List Nat) : Prop := ∀ c ∈ l, c ≠ 42

instance (l : List Nat) : Decidable (starFree l) := by
  unfold starFree
  infer_instance

/-- All abstract float strings are `*`-free (every `dtostrf` output is). -/
def FloatStrs.wf (f : FloatStrs) : Prop :=
  starFree f.latS ∧ starFree f.lonS ∧ starFree f.hdopS ∧ starFree f.altS ∧
  starFree f.geoidS ∧ starFree f.speedS ∧ starFree f.courseTS ∧
  starFree f.courseMS ∧ starFree f.magS ∧ starFree f.pdopS ∧
  starFree f.vdopS ∧ starFree f.speedKmS

instance (f : FloatStrs) : Decidable f.wf := by
  unfold FloatStrs.wf
  infer_instance

/-- `NMEAGenerator::formatTime` (`%02d%02d%02d.00`). -/
def formatTime (st : NMEAGPSState) : List Nat :=
  fmtU 2 st.hour ++ fmtU 2 st.minute ++ fmtU 2 st.second ++ [46, 48, 48]

/-- `NMEAGenerator::formatDate` (`%02d%02d%02d`, two-digit year). -/
def formatDate (st : NMEAGPSState) : List Nat :=
  fmtU 2 st.day ++ fmtU 2 st.month ++ fmtU 2 (st.year % 100)

/-- `NMEAGPSState::getLatHemisphere` byte. -/
def getLatHemisphere (st : NMEAGPSState) : Nat :=
  if st.latitude ≥ 0 then 78 else 83

/-- `NMEAGPSState::getLonHemisphere` byte. -/
def getLonHemisphere (st : NMEAGPSState) : Nat :=
  if st.longitude ≥ 0 then 69 else 87

/-- GGA sentence body (before checksum/CR LF). -/
def ggaBody (st : NMEAGPSState) (f : FloatStrs) : List Nat :=
  36 :: [71, 80, 71, 71, 65, 44] ++ formatTime st ++ [44] ++ f.latS ++
  [44, getLatHemisphere st, 44] ++ f.lonS ++ [44, getLonHemisphere st, 44] ++
  decChars st.fixQuality ++ [44] ++ fmtU 2 st.numSatellites ++ [44] ++
  f.hdopS ++ [44] ++ f.altS ++ [44, 77, 44] ++ f.geoidS ++ [44, 77, 44, 44]

/-- RMC sentence body; the validity flag is `A` exactly when
`fixQuality > 0`. -/
def rmcBody (st : NMEAGPSState) (f : FloatStrs) : List Nat :=
  36 :: [71, 80, 82, 77, 67, 44] ++ formatTime st ++
  [44, if st.fixQuality > 0 then 65 else 86, 44] ++ f.latS ++
  [44, getLatHemisphere st, 44] ++ f.lonS ++ [44, getLonHemisphere st, 44] ++
  f.speedS ++ [44] ++ f.courseTS ++ [44] ++ formatDate st ++ [44] ++
  f.magS ++ [44, if st.magVariation ≥ 0 then 69 else 87, 44, 65]

/-- One GSA satellite slot: `,%02d` when the slot holds a satellite with a
positive PRN, a bare comma otherwise. -/
def gsaField (sats : List (Nat × Nat × Nat × Nat)) (i : Nat) : List Nat :=
  match sats[i]? with
  | some sat => if sat.1 > 0 then 44 :: fmtU 2 sat.1 else [44]
  | none => [44]

/-- GSA sentence body: fix mode, 12 PRN slots, the three DOPs. -/
def gsaBody (st : NMEAGPSState) (f : FloatStrs) : List Nat :=
  36 :: [71, 80, 71, 83, 65, 44, 65, 44] ++ decChars st.fixMode ++
  ((List.range 12).map (gsaField st.sats)).flatten ++
  [44] ++ f.pdopS ++ [44] ++ f.hdopS ++ [44] ++ f.vdopS

/-- One GSV per-satellite field group (`,%02d,%02d,%03d,%02d`:
PRN, elevation, azimuth, SNR). -/
def gsvSatGroup (sat : Nat × Nat × Nat × Nat) : List Nat :=
  44 :: fmtU 2 sat.1 ++ 44 :: fmtU 2 sat.2.1 ++ 44 :: fmtU 3 sat.2.2.1 ++
    44 :: fmtU 2 sat.2.2.2

/-- GSV message body (`$GPGSV,%d,%d,%02d` then up to four groups). -/
def gsvBody (numMsgs msg n : Nat) (chunk : List (Nat × Nat × Nat × Nat)) :
    List Nat :=
  36 :: [71, 80, 71, 83, 86, 44] ++ decChars numMsgs ++ [44] ++ decChars msg ++
  [44] ++ fmtU 2 n ++ (chunk.map gsvSatGroup).flatten

/-- Message count of `outputGSV`: `(n + 3) / 4`, forced to 1 when zero. -/
def gsvNumMsgs (n : Nat) : Nat :=
  let v := (n + 3) / 4
  if v = 0 then 1 else v

/-- The per-message loop of `outputGSV`: each message takes up to four
satellites from `satIdx` on. -/
def gsvGo (numMsgs n : Nat) :
    Nat → Nat → List (Nat × Nat × Nat × Nat) → List (List Nat)
  | 0, _, _ => []
  | fuel + 1, msg, sats =>
    sendSentence (gsvBody numMsgs msg n (sats.take 4)) ::
      gsvGo numMsgs n fuel (msg + 1) (sats.drop 4)

/-- Model of `NMEAGenerator::outputGSV` on the in-view satellite list. -/
def outputGSV (sats : List (Nat × Nat × Nat × Nat)) : List (List Nat) :=
  gsvGo (gsvNumMsgs sats.length) sats.length (gsvNumMsgs sats.length) 1 sats

/-- Total count of per-satellite field groups across the emitted GSV
messages (each chunk element contributes exactly one group). -/
def gsvGroupsTotal : Nat → List (Nat × Nat × Nat × Nat) → Nat
  | 0, _ => 0
  | fuel + 1, sats => (sats.take 4).length + gsvGroupsTotal fuel (sats.drop 4)

/-- VTG sentence body. -/
def vtgBody (st : NMEAGPSState) (f : FloatStrs) : List Nat :=
  36 :: [71, 80, 86, 84, 71, 44] ++ f.courseTS ++ [44, 84, 44] ++
  f.courseMS ++ [44, 77, 44] ++ f.speedS ++ [44, 78, 44] ++
  f.speedKmS ++ [44, 75, 44, 65]

/-- Model of `NMEAGenerator::outputAll`: GGA, RMC, GSA, the GSV chunk
sequence, then VTG. -/
def outputAll (st : NMEAGPSState) (f : FloatStrs) : List (List Nat) :=
  [sendSentence (ggaBody st f), sendSentence (rmcBody st f),
   sendSentence (gsaBody st f)] ++ outputGSV st.sats ++
  [sendSentence (vtgBody st f)]

/-! ### C3: checksum and framing of every generated sentence -/

/-- The checksum/framing contract of a generated sentence: a leading `$`,
a `*`-free body, then `*`, the two uppercase hex digits of the XOR of all
body bytes, and CR LF. -/
def checksumOk (out : List Nat) : Prop :=
  ∃ body, starFree body ∧
    out = 36 :: body ++ 42 :: hexPair (body.foldl Nat.xor 0) ++ [13, 10]

theorem starFree_append_iff {a b : List Nat} :
    starFree (a ++ b) ↔ starFree a ∧ starFree b := by
  unfold starFree
  simp [List.mem_append]
  constructor
  · intro h
    exact ⟨fun c hc => h c (Or.inl hc), fun c hc => h c (Or.inr hc)⟩
  · rintro ⟨ha, hb⟩ c (hc | hc)
    · exact ha c hc
    · exact hb c hc

theorem starFree_cons_iff {c : Nat} {t : List Nat} :
    starFree (c :: t) ↔ c ≠ 42 ∧ starFree t := by
  unfold starFree
  simp

theorem starFree_nil : starFree [] := by
  unfold starFree
  simp

theorem starFree_fmtU (w n : Nat) : starFree (fmtU w n) := by
  intro c hc
  have := fmtU_digits hc
  omega

theorem starFree_decChars (n : Nat) : starFree (decChars n) := by
  intro c hc
  have := decChars_digits hc
  omega

theorem starFree_flatten {L : List (List Nat)} (h : ∀ l ∈ L, starFree l) :
    starFree L.flatten := by
  intro c hc
  rw [List.mem_flatten] at hc
  obtain ⟨l, hl, hcl⟩ := hc
  exact h l hl c hcl

theorem checksumGo_eq_foldl (t : List Nat) :
    ∀ acc, starFree t → checksumGo t acc = t.foldl Nat.xor acc := by
  induction t with
  | nil => intro acc _; rfl
  | cons c r ih =>
    intro acc h
    rw [starFree_cons_iff] at h
    show (if c = 42 then acc else checksumGo r (Nat.xor acc c)) = _
    rw [if_neg h.1, List.foldl_cons, ih _ h.2]

theorem sendSentence_ok (body : List Nat) (hsf : starFree body) :
    checksumOk (sendSentence (36 :: body)) := by
  refine ⟨body, hsf, ?_⟩
  unfold sendSentence calculateChecksum
  have hc : (if (36 :: body : List Nat).head? = some 36
      then (36 :: body).tail else 36 :: body) = body := by
    simp
  rw [hc, checksumGo_eq_foldl body 0 hsf]
  simp

theorem gga_checksumOk (st : NMEAGPSState) (f : FloatStrs) (hf : f.wf) :
    checksumOk (sendSentence (ggaBody st f)) := by
  obtain ⟨w1, w2, w3, w4, w5, w6, w7, w8, w9, w10, w11, w12⟩ := hf
  unfold ggaBody
  apply sendSentence_ok
  · have hlat : getLatHemisphere st ≠ 42 := by
      unfold getLatHemisphere
      split_ifs <;> decide
    have hlon : getLonHemisphere st ≠ 42 := by
      unfold getLonHemisphere
      split_ifs <;> decide
    simp [formatTime, starFree_append_iff, starFree_cons_iff, starFree_nil,
      starFree_fmtU, starFree_decChars, hlat, hlon, w1, w2, w3, w4, w5]

theorem rmc_checksumOk (st : NMEAGPSState) (f : FloatStrs) (hf : f.wf) :
    checksumOk (sendSentence (rmcBody st f)) := by
  obtain ⟨w1, w2, w3, w4, w5, w6, w7, w8, w9, w10, w11, w12⟩ := hf
  unfold rmcBody
  apply sendSentence_ok
  · have hlat : getLatHemisphere st ≠ 42 := by
      unfold getLatHemisphere
      split_ifs <;> decide
    have hlon : getLonHemisphere st ≠ 42 := by
      unfold getLonHemisphere
      split_ifs <;> decide
    have hst : (if st.fixQuality > 0 then 65 else 86) ≠ 42 := by
      split_ifs <;> decide
    have hmg : (if st.magVariation ≥ 0 then 69 else 87) ≠ 42 := by
      split_ifs <;> decide
    simp [formatTime, formatDate, starFree_append_iff, starFree_cons_iff,
      starFree_nil, starFree_fmtU, starFree_decChars, hlat, hlon, hst, hmg,
      w1, w2, w6, w7, w9]

theorem gsa_checksumOk (st : NMEAGPSState) (f : FloatStrs) (hf : f.wf) :
    checksumOk (sendSentence (gsaBody st f)) := by
  obtain ⟨w1, w2, w3, w4, w5, w6, w7, w8, w9, w10, w11, w12⟩ := hf
  unfold gsaBody
  apply sendSentence_ok
  · have hfields : starFree ((List.range 12).map (gsaField st.sats)).flatten := by
      apply starFree_flatten
      intro l hl
      rw [List.mem_map] at hl
      obtain ⟨i, -, rfl⟩ := hl
      unfold gsaField
      cases st.sats[i]? with
      | none => decide
      | some sat =>
        dsimp only
        split_ifs
        · rw [starFree_cons_iff]
          exact ⟨by decide, starFree_fmtU 2 sat.1⟩
        · decide
    simp [starFree_append_iff, starFree_cons_iff, starFree_nil,
      starFree_decChars, hfields, w3, w10, w11]

theorem gsv_checksumOk (numMsgs msg n : Nat)
    (chunk : List (Nat × Nat × Nat × Nat)) :
    checksumOk (sendSentence (gsvBody numMsgs msg n chunk)) := by
  unfold gsvBody
  apply sendSentence_ok
  · have hgroups : starFree (chunk.map gsvSatGroup).flatten := by
      apply starFree_flatten
      intro l hl
      rw [List.mem_map] at hl
      obtain ⟨sat, -, rfl⟩ := hl
      unfold gsvSatGroup
      simp [starFree_append_iff, starFree_cons_iff, starFree_fmtU]
    simp [starFree_append_iff, starFree_cons_iff, starFree_nil,
      starFree_decChars, starFree_fmtU, hgroups]

theorem vtg_checksumOk (st : NMEAGPSState) (f : FloatStrs) (hf : f.wf) :
    checksumOk (sendSentence (vtgBody st f)) := by
  obtain ⟨w1, w2, w3, w4, w5, w6, w7, w8, w9, w10, w11, w12⟩ := hf
  unfold vtgBody
  apply sendSentence_ok
  simp [starFree_append_iff, starFree_cons_iff, starFree_nil,
    w6, w7, w8, w12]

theorem gsvGo_mem {numMsgs n : Nat} {out : List Nat} :
    ∀ {fuel msg : Nat} {sats : List (Nat × Nat × Nat × Nat)},
    out ∈ gsvGo numMsgs n fuel msg sats →
    ∃ m chunk, out = sendSentence (gsvBody numMsgs m n chunk) := by
  intro fuel
  induction fuel with
  | zero =>
    intro msg sats h
    simp [gsvGo] at h
  | succ f ih =>
    intro msg sats h
    rcases List.mem_cons.mp h with rfl | h
    · exact ⟨msg, sats.take 4, rfl⟩
    · exact ih h

set_option maxHeartbeats 1000000 in
/-- C3: every sentence emitted by one NMEA output cycle (GGA, RMC, GSA,
each GSV chunk, VTG) starts with `$`, and the two bytes after the `*` are
the uppercase two-hex-digit rendering of the XOR of all bytes strictly
between the `$` and the `*`, followed by CR LF — given only that the
abstractly formatted float fields contain no `*` byte. -/
theorem c3_nmea_checksum (st : NMEAGPSState) (f : FloatStrs) (hf : f.wf) :
    ∀ out ∈ outputAll st f, checksumOk out := by
  intro out hout
  rcases List.mem_append.mp hout with h | h
  · rcases List.mem_append.mp h with h | h
    · rcases List.mem_cons.mp h with rfl | h
      · exact gga_checksumOk st f hf
      · rcases List.mem_cons.mp h with rfl | h
        · exact rmc_checksumOk st f hf
        · rcases List.mem_cons.mp h with rfl | h
          · exact gsa_checksumOk st f hf
          · simp at h
    · obtain ⟨m, chunk, rfl⟩ := gsvGo_mem h
      exact gsv_checksumOk _ m _ chunk
  · rcases List.mem_cons.mp h with rfl | h
    · exact vtg_checksumOk st f hf
    · simp at h

/-- C3 witness: the GGA sentence of the reset state with concrete
formatted float fields satisfies the checksum contract. -/
theorem c3_nmea_checksum_witness :
    FloatStrs.wf ⟨[51, 55], [49], [49], [49, 48], [45, 51, 52], [48],
      [48], [48], [49, 51], [49], [49], [48]⟩ ∧
    sendSentence (ggaBody NMEAGPSState.reset
        ⟨[51, 55], [49], [49], [49, 48], [45, 51, 52], [48],
         [48], [48], [49, 51], [49], [49], [48]⟩) ∈
      outputAll NMEAGPSState.reset
        ⟨[51, 55], [49], [49], [49, 48], [45, 51, 52], [48],
         [48], [48], [49, 51], [49], [49], [48]⟩ ∧
    checksumOk (sendSentence (ggaBody NMEAGPSState.reset
        ⟨[51, 55], [49], [49], [49, 48], [45, 51, 52], [48],
         [48], [48], [49, 51], [49], [49], [48]⟩)) :=
  ⟨by decide, by simp [outputAll],
    c3_nmea_checksum NMEAGPSState.reset
      ⟨[51, 55], [49], [49], [49, 48], [45, 51, 52], [48],
       [48], [48], [49, 51], [49], [49], [48]⟩ (by decide) _
      (by simp [outputAll])⟩

/-! ### C5: GSV chunking -/

theorem gsvGo_length (a b : Nat) :
    ∀ (fuel msg : Nat) (sats : List (Nat × Nat × Nat × Nat)),
    (gsvGo a b fuel msg sats).length = fuel := by
  intro fuel
  induction fuel with
  | zero => intro msg sats; rfl
  | succ f ih =>
    intro msg sats
    show (_ :: gsvGo a b f (msg + 1) (sats.drop 4)).length = f + 1
    rw [List.length_cons, ih]

theorem gsvGroupsTotal_eq :
    ∀ (fuel : Nat) (sats : List (Nat × Nat × Nat × Nat)),
    sats.length ≤ 4 * fuel → gsvGroupsTotal fuel sats = sats.length := by
  intro fuel
  induction fuel with
  | zero =>
    intro sats h
    show (0 : Nat) = sats.length
    omega
  | succ f ih =>
    intro sats h
    show (sats.take 4).length + gsvGroupsTotal f (sats.drop 4) = sats.length
    rw [ih (sats.drop 4) (by simp; omega)]
    simp
    omega

theorem length_le_mul_gsvNumMsgs (n : Nat) : n ≤ 4 * gsvNumMsgs n := by
  simp only [gsvNumMsgs]
  split_ifs with h <;> omega

/-- C5 (amended): one output cycle emits exactly `max 1 ⌈N/4⌉` GSV
sentences — `⌈N/4⌉` for every `N ≥ 1`, but a single satellite-free
sentence when `N = 0` — and the per-satellite field groups across all
emitted sentences total exactly `N`. -/
theorem c5_gsv_chunking (sats : List (Nat × Nat × Nat × Nat)) :
    (outputGSV sats).length = gsvNumMsgs sats.length ∧
    gsvNumMsgs sats.length = max 1 ((sats.length + 3) / 4) ∧
    gsvGroupsTotal (gsvNumMsgs sats.length) sats = sats.length ∧
    (sats.length ≠ 0 → (outputGSV sats).length = (sats.length + 3) / 4) := by
  refine ⟨gsvGo_length _ _ _ _ _, ?_, ?_, ?_⟩
  · simp only [gsvNumMsgs]
    split_ifs with h <;> omega
  · exact gsvGroupsTotal_eq _ sats (length_le_mul_gsvNumMsgs sats.length)
  · intro hn
    show (gsvGo (gsvNumMsgs sats.length) sats.length
      (gsvNumMsgs sats.length) 1 sats).length = _
    rw [gsvGo_length]
    simp only [gsvNumMsgs]
    split_ifs with h <;> omega

/-- C5 counterexample to the claim as stated: with zero satellites in
view, `ceil(0/4) = 0` but the generator still emits one GSV sentence. -/
theorem c5_counterexample :
    (outputGSV ([] : List (Nat × Nat × Nat × Nat))).length = 1 ∧
    ((0 + 3) / 4 : Nat) = 0 ∧ (1 : Nat) ≠ 0 :=
  ⟨rfl, rfl, by decide⟩

/-- C5 witness: the default 8-satellite constellation yields 2 GSV
sentences (`⌈8/4⌉`). -/
theorem c5_gsv_chunking_witness :
    NMEAGPSState.initSats.length ≠ 0 ∧
    (outputGSV NMEAGPSState.initSats).length =
      (NMEAGPSState.initSats.length + 3) / 4 :=
  ⟨by decide, (c5_gsv_chunking NMEAGPSState.initSats).2.2.2 (by decide)⟩

/-! ### Device wrappers: lifecycle (`G5500Device.cpp`, `NMEAGPSDevice`) -/

/-- Rotator device options: baud-rate enum index plus the two speed
knobs (deg/s). -/
structure G5500Options where
  baudIndex : Nat
  azSpeed : Nat
  elSpeed : Nat
deriving DecidableEq, Repr

/-- Rotator device wrapper: options, simulated state, running flag. -/
structure G5500Device where
  options : G5500Options
  state : G5500St
  running : Bool
deriving DecidableEq, Repr

namespace G5500Device

/-- `G5500Device::begin`: apply the baud rate, reset the parser and the
simulated state, stamp `lastUpdateMs` with the current time, mark
running.  Options are untouched. -/
def begin (d : G5500Device) (now : Nat) : G5500Device :=
  { d with state := { G5500St.reset with lastUpdateMs := now },
           running := true }

/-- `G5500Device::end` (named `endDev`, `end` is reserved): stop running,
stop all rotation, close the serial port.  State is otherwise retained. -/
def endDev (d : G5500Device) : G5500Device :=
  { d with running := false, state := d.state.stopAll }

end G5500Device

/-- GPS device options: baud-rate and update-rate enum indices. -/
structure NMEAOptions where
  baudIndex : Nat
  rateIndex : Nat
deriving DecidableEq, Repr

/-- GPS device wrapper: options, simulated state, running flag. -/
structure NMEAGPSDevice where
  options : NMEAOptions
  state : NMEAGPSState
  running : Bool
deriving DecidableEq, Repr

namespace NMEAGPSDevice

/-- `NMEAGPSDevice::begin`: apply the baud rate, reset the simulated
state, stamp `lastOutputMs`, mark running.  Options are untouched. -/
def begin (d : NMEAGPSDevice) (now : Nat) : NMEAGPSDevice :=
  { d with state := { NMEAGPSState.reset with lastOutputMs := now },
           running := true }

/-- `NMEAGPSDevice::end` (named `endDev`): stop running and close the
serial port; state is otherwise retained. -/
def endDev (d : NMEAGPSDevice) : NMEAGPSDevice :=
  { d with running := false }

end NMEAGPSDevice

/-! ### C10: `begin()` discards simulated state but keeps options -/

/-- C10: across an `end()`/`begin()` stop-start cycle, `begin` resets the
simulated state model to its defaults — rotator positions/targets to 0
with rotation stopped and goto-mode clear, GPS position/fix/clock to the
reset defaults — with only the fresh update timestamp differing, while
the option values survive the cycle unchanged. -/
theorem c10_begin_resets_state (d : G5500Device) (g : NMEAGPSDevice)
    (now1 now2 : Nat) :
    ((d.endDev).begin now1).state
      = { G5500St.reset with lastUpdateMs := now1 } ∧
    ((d.endDev).begin now1).options = d.options ∧
    ((d.endDev).begin now1).running = true ∧
    ((g.endDev).begin now2).state
      = { NMEAGPSState.reset with lastOutputMs := now2 } ∧
    ((g.endDev).begin now2).options = g.options ∧
    ((g.endDev).begin now2).running = true :=
  ⟨rfl, rfl, rfl, rfl, rfl, rfl⟩

/-! ### Device manager (`DeviceManager.cpp`)

Factories are represented by their type names (byte strings); the invalid
id sentinel (`INVALID_ID` = 0xFF) is modelled as `none`, both as the
"no device" return of `createDevice` and as the "free" marker of the
UART allocation table. -/

/-- ASCII lower-casing (for `strcasecmp`). -/
def tolowerB (c : Nat) : Nat := if 65 ≤ c ∧ c ≤ 90 then c + 32 else c

/-- Equality under `strcasecmp`. -/
def strCaseEq (a b : List Nat) : Bool :=
  a.map tolowerB == b.map tolowerB

/-- Compile-time platform configuration (`platform_config.h`). -/
structure DMConfig where
  maxUarts : Nat
  hasSerial1 : Bool
  hasSerial2 : Bool
  maxDevices : Nat
  maxFactories : Nat
deriving DecidableEq, Repr

/-- A live device instance slot: owning factory type name, the 1-based
UART it was created on, and the running flag. -/
structure DevRec where
  typeName : List Nat
  uartIndex : Nat
  running : Bool
deriving DecidableEq, Repr

/-- Manager state: factory registry, instance slots, UART allocation
table and the lazily created serial-port wrappers. -/
structure DeviceManager where
  config : DMConfig
  factories : List (List Nat)
  devices : List (Option DevRec)
  uartAllocation : List (Option Nat)
  serialPorts : List Bool
deriving DecidableEq, Repr

/-- The freshly constructed manager: everything empty / free. -/
def mkManager (cfg : DMConfig) : DeviceManager where
  config := cfg
  factories := []
  devices := List.replicate cfg.maxDevices none
  uartAllocation := List.replicate cfg.maxUarts none
  serialPorts := List.replicate cfg.maxUarts false

/-- Device slot read (`_devices[i]`, `nullptr` as `none`). -/
def devAt (m : DeviceManager) (i : Nat) : Option DevRec :=
  m.devices.getD i none

/-- Model of `DeviceManager::registerFactory` (capacity check, then a
case-sensitive `strcmp` duplicate scan, then append). -/
def registerFactory (m : DeviceManager) (name : List Nat) :
    Bool × DeviceManager :=
  if m.factories.length ≥ m.config.maxFactories then (false, m)
  else if m.factories.any (fun f => f == name) then (false, m)
  else (true, { m with factories := m.factories ++ [name] })

/-- Model of `DeviceManager::findFactory` (`strcasecmp` scan in
registration order). -/
def findFactory (m : DeviceManager) (typeName : List Nat) :
    Option (List Nat) :=
  m.factories.find? (fun f => strCaseEq f typeName)

/-- Model of `DeviceManager::resolveTypeName`: category aliases `radio`,
`rotator`, `gps` (case-insensitive) map to the configured default
concrete types `ft-991a`, `g-5500`, `nmea-gps`. -/
def resolveTypeName (t : List Nat) : List Nat :=
  if strCaseEq t [114, 97, 100, 105, 111] then [102, 116, 45, 57, 57, 49, 97]
  else if strCaseEq t [114, 111, 116, 97, 116, 111, 114] then
    [103, 45, 53, 53, 48, 48]
  else if strCaseEq t [103, 112, 115] then
    [110, 109, 101, 97, 45, 103, 112, 115]
  else t

/-- Model of `DeviceManager::isUartAvailable`: index in 1..maxUarts, the
platform `HAS_SERIAL1`/`HAS_SERIAL2` gates, and a free allocation slot. -/
def isUartAvailable (m : DeviceManager) (u : Nat) : Bool :=
  if u = 0 ∨ u > m.config.maxUarts then false
  else if u = 1 ∧ ¬ m.config.hasSerial1 then false
  else if u = 2 ∧ ¬ m.config.hasSerial2 then false
  else (m.uartAllocation.getD (u - 1) none).isNone

/-- Model of `DeviceManager::findFreeDeviceSlot`: index of the first
empty slot. -/
def firstNone : List (Option DevRec) → Option Nat
  | [] => none
  | none :: _ => some 0
  | some _ :: t => (firstNone t).map (· + 1)

/-- Model of `DeviceManager::getSerialForUart`: reuse an existing wrapper
or lazily create one when the platform has that serial, else fail. -/
def getSerialForUart (m : DeviceManager) (u : Nat) :
    Option DeviceManager :=
  if u = 0 ∨ u > m.config.maxUarts then none
  else if m.serialPorts.getD (u - 1) false then some m
  else if (u = 1 ∧ m.config.hasSerial1) ∨ (u = 2 ∧ m.config.hasSerial2) then
    some { m with serialPorts := m.serialPorts.set (u - 1) true }
  else none

/-- Model of `DeviceManager::createDevice`: resolve the type, validate the
UART index and its availability, find the factory, find a free slot, get
the serial wrapper, build the device, record slot and UART ownership.
Every failing check returns the sentinel (`none`) with the manager
unchanged. -/
def createDevice (m : DeviceManager) (typeName : List Nat) (u : Nat) :
    Option Nat × DeviceManager :=
  if u = 0 ∨ u > m.config.maxUarts then (none, m)
  else if ¬ isUartAvailable m u then (none, m)
  else
    match findFactory m (resolveTypeName typeName) with
    | none => (none, m)
    | some fac =>
      match firstNone m.devices with
      | none => (none, m)
      | some slot =>
        match getSerialForUart m u with
        | none => (none, m)
        | some m1 =>
          (some slot,
           { m1 with
             devices := m1.devices.set slot
               (some { typeName := fac, uartIndex := u, running := false }),
             uartAllocation := m1.uartAllocation.set (u - 1) (some slot) })

/-- Model of `DeviceManager::destroyDevice`: no-op `false` on an invalid
or empty slot; otherwise stop the device, free its UART allocation,
destroy it and clear the slot. -/
def destroyDevice (m : DeviceManager) (id : Nat) : Bool × DeviceManager :=
  if id ≥ m.config.maxDevices then (false, m)
  else
    match m.devices.getD id none with
    | none => (false, m)
    | some d =>
      if 1 ≤ d.uartIndex ∧ d.uartIndex ≤ m.config.maxUarts then
        (true, { m with
          uartAllocation := m.uartAllocation.set (d.uartIndex - 1) none,
          devices := m.devices.set id none })
      else
        (true, { m with devices := m.devices.set id none })

/-! ### C9: factory registration uniqueness -/

/-- C9 (amended): `registerFactory` returns `false` and leaves the
registry unchanged when the registry is full or when a factory with a
byte-identical (case-sensitive, `strcmp`) type name is already
registered; otherwise it appends the factory and returns `true` — also
when the new name differs from a registered one only in letter case. -/
theorem c9_register_factory :
    (∀ m name, m.factories.length ≥ m.config.maxFactories →
        registerFactory m name = (false, m)) ∧
    (∀ m name, name ∈ m.factories → registerFactory m name = (false, m)) ∧
    (∀ m name, m.factories.length < m.config.maxFactories →
        name ∉ m.factories →
        registerFactory m name
          = (true, { m with factories := m.factories ++ [name] })) := by
  refine ⟨?_, ?_, ?_⟩
  · intro m name h
    unfold registerFactory
    rw [if_pos h]
  · intro m name h
    unfold registerFactory
    by_cases hfull : m.factories.length ≥ m.config.maxFactories
    · rw [if_pos hfull]
    · rw [if_neg hfull, if_pos]
      rw [List.any_eq_true]
      exact ⟨name, h, by simp⟩
  · intro m name hlen hmem
    unfold registerFactory
    rw [if_neg (by omega), if_neg]
    rw [List.any_eq_true]
    rintro ⟨f, hf, heq⟩
    rw [beq_iff_eq] at heq
    subst heq
    exact hmem hf

/-- C9 counterexample to the claim as stated: with factory `"a"` (byte
97) registered, registering `"A"` (byte 65) — equal under `strcasecmp` —
succeeds and extends the registry, because the duplicate scan uses the
case-sensitive `strcmp`. -/
theorem c9_counterexample :
    strCaseEq [97] [65] = true ∧
    (registerFactory
      { config := ⟨1, true, false, 4, 8⟩, factories := [[97]],
        devices := List.replicate 4 none,
        uartAllocation := List.replicate 1 none,
        serialPorts := List.replicate 1 false } [65]).1 = true ∧
    (registerFactory
      { config := ⟨1, true, false, 4, 8⟩, factories := [[97]],
        devices := List.replicate 4 none,
        uartAllocation := List.replicate 1 none,
        serialPorts := List.replicate 1 false } [65]).2.factories
      = [[97], [65]] :=
  ⟨by decide, by decide, by decide⟩

/-- C9 witness: a byte-identical duplicate is rejected with the registry
unchanged. -/
theorem c9_register_factory_witness :
    ([97] : List Nat) ∈ [[97]] ∧
    registerFactory
      { config := ⟨1, true, false, 4, 8⟩, factories := [[97]],
        devices := List.replicate 4 none,
        uartAllocation := List.replicate 1 none,
        serialPorts := List.replicate 1 false } [97]
      = (false,
        { config := ⟨1, true, false, 4, 8⟩, factories := [[97]],
          devices := List.replicate 4 none,
          uartAllocation := List.replicate 1 none,
          serialPorts := List.replicate 1 false }) :=
  ⟨by decide, c9_register_factory.2.1 _ [97] (by decide)⟩

/-! ### C2: UART exclusivity -/

theorem getD_set_self {α : Type} (l : List (Option α)) (i : Nat)
    (v : Option α) (h : i < l.length) : (l.set i v).getD i none = v := by
  rw [List.getD_eq_getElem?_getD, List.getElem?_set_self h]
  rfl

theorem getD_set_ne {α : Type} (l : List (Option α)) {i j : Nat}
    (v : Option α) (h : i ≠ j) : (l.set i v).getD j none = l.getD j none := by
  rw [List.getD_eq_getElem?_getD, List.getElem?_set_ne h,
    ← List.getD_eq_getElem?_getD]

theorem getD_replicate_none {α : Type} (n i : Nat) :
    (List.replicate n (none : Option α)).getD i none = none := by
  rw [List.getD_eq_getElem?_getD, List.getElem?_replicate]
  split_ifs <;> rfl

/-- Per-slot invariant: an occupied device slot holds a UART index in
1..maxUarts whose allocation entry points back at the slot. -/
def devOK (m : DeviceManager) (i : Nat) : Prop :=
  match devAt m i with
  | none => True
  | some d =>
    1 ≤ d.uartIndex ∧ d.uartIndex ≤ m.config.maxUarts ∧
      m.uartAllocation.getD (d.uartIndex - 1) none = some i

instance (m : DeviceManager) (i : Nat) : Decidable (devOK m i) := by
  unfold devOK
  cases devAt m i with
  | none => exact isTrue trivial
  | some d => infer_instance

/-- Manager invariant: well-sized tables and `devOK` at every slot.  In
particular (see `c2_uart_exclusive`) it forces distinct live devices to
own distinct UARTs. -/
def Inv (m : DeviceManager) : Prop :=
  m.devices.length = m.config.maxDevices ∧
  m.uartAllocation.length = m.config.maxUarts ∧
  ∀ i < m.devices.length, devOK m i

instance (m : DeviceManager) : Decidable (Inv m) := by
  unfold Inv
  infer_instance

theorem devAt_lt {m : DeviceManager} {i : Nat} {d : DevRec}
    (h : devAt m i = some d) : i < m.devices.length := by
  by_contra hge
  push_neg at hge
  rw [devAt, List.getD_eq_getElem?_getD, List.getElem?_eq_none (by omega)] at h
  simp at h

theorem inv_link {m : DeviceManager} (h : Inv m) {i : Nat} {d : DevRec}
    (hd : devAt m i = some d) :
    1 ≤ d.uartIndex ∧ d.uartIndex ≤ m.config.maxUarts ∧
      m.uartAllocation.getD (d.uartIndex - 1) none = some i := by
  have hOK := h.2.2 i (devAt_lt hd)
  unfold devOK at hOK
  rw [hd] at hOK
  exact hOK

theorem firstNone_some {l : List (Option DevRec)} :
    ∀ {i}, firstNone l = some i → i < l.length ∧ l.getD i none = none := by
  induction l with
  | nil =>
    intro i h
    simp [firstNone] at h
  | cons a t ih =>
    intro i h
    cases a with
    | none =>
      have : i = 0 := by simpa [firstNone] using h.symm
      subst this
      exact ⟨by simp, rfl⟩
    | some d =>
      rw [show firstNone (some d :: t) = (firstNone t).map (· + 1) from rfl,
        Option.map_eq_some'] at h
      obtain ⟨j, hj, rfl⟩ := h
      obtain ⟨h1, h2⟩ := ih hj
      refine ⟨by simp; omega, ?_⟩
      simpa using h2

theorem firstNone_of_slot {l : List (Option DevRec)} :
    ∀ {i}, i < l.length → l.getD i none = none →
      ∃ s, firstNone l = some s := by
  induction l with
  | nil =>
    intro i h _
    simp at h
  | cons a t ih =>
    intro i hi hnone
    cases a with
    | none => exact ⟨0, rfl⟩
    | some d =>
      cases i with
      | zero => simp [List.getD] at hnone
      | succ i2 =>
        have hi2 : i2 < t.length := by
          simp at hi
          omega
        obtain ⟨s, hs⟩ := ih hi2 (by simpa using hnone)
        refine ⟨s + 1, ?_⟩
        rw [show firstNone (some d :: t) = (firstNone t).map (· + 1) from rfl,
          hs]
        rfl

theorem getSerialForUart_parts {m : DeviceManager} {u : Nat}
    {m1 : DeviceManager} (h : getSerialForUart m u = some m1) :
    m1.config = m.config ∧ m1.factories = m.factories ∧
    m1.devices = m.devices ∧ m1.uartAllocation = m.uartAllocation := by
  unfold getSerialForUart at h
  split_ifs at h with h1 h2 h3
  · obtain rfl : m = m1 := by simpa using h
    exact ⟨rfl, rfl, rfl, rfl⟩
  · obtain rfl : ({ m with serialPorts := m.serialPorts.set (u - 1) true }
        : DeviceManager) = m1 := by simpa using h
    exact ⟨rfl, rfl, rfl, rfl⟩

theorem getSerialForUart_isSome {m : DeviceManager} {u : Nat}
    (h1 : ¬ (u = 0 ∨ u > m.config.maxUarts))
    (hsup : (u = 1 ∧ m.config.hasSerial1 = true) ∨
      (u = 2 ∧ m.config.hasSerial2 = true)) :
    ∃ m1, getSerialForUart m u = some m1 := by
  unfold getSerialForUart
  rw [if_neg h1]
  by_cases hflag : m.serialPorts.getD (u - 1) false = true
  · rw [if_pos hflag]
    exact ⟨m, rfl⟩
  · rw [if_neg hflag, if_pos hsup]
    exact ⟨_, rfl⟩

theorem isUartAvailable_true {m : DeviceManager} {u : Nat}
    (h : isUartAvailable m u = true) :
    1 ≤ u ∧ u ≤ m.config.maxUarts ∧
      m.uartAllocation.getD (u - 1) none = none := by
  unfold isUartAvailable at h
  split_ifs at h with h1 h2 h3
  push_neg at h1
  refine ⟨by omega, h1.2, ?_⟩
  rwa [Option.isNone_iff_eq_none] at h

theorem isUartAvailable_busy {m : DeviceManager} {u : Nat}
    (h : m.uartAllocation.getD (u - 1) none ≠ none) :
    isUartAvailable m u = false := by
  unfold isUartAvailable
  split_ifs <;> try rfl
  cases hx : m.uartAllocation.getD (u - 1) none with
  | none => exact absurd hx h
  | some v => rfl

theorem createDevice_none {m : DeviceManager} {t : List Nat} {u : Nat}
    {m2 : DeviceManager} (h : createDevice m t u = (none, m2)) : m2 = m := by
  unfold createDevice at h
  by_cases h0 : u = 0 ∨ u > m.config.maxUarts
  · rw [if_pos h0] at h
    exact (Prod.mk.injEq _ _ _ _ ▸ h).2.symm
  rw [if_neg h0] at h
  by_cases h1 : isUartAvailable m u = true
  · rw [if_neg (by simp [h1])] at h
    cases hf : findFactory m (resolveTypeName t) with
    | none =>
      rw [hf] at h
      exact (Prod.mk.injEq _ _ _ _ ▸ h).2.symm
    | some fac =>
      rw [hf] at h
      cases hs : firstNone m.devices with
      | none =>
        rw [hs] at h
        exact (Prod.mk.injEq _ _ _ _ ▸ h).2.symm
      | some slot =>
        rw [hs] at h
        cases hg : getSerialForUart m u with
        | none =>
          rw [hg] at h
          exact (Prod.mk.injEq _ _ _ _ ▸ h).2.symm
        | some m1 =>
          rw [hg] at h
          simp at h
  · rw [if_pos (by simpa using h1)] at h
    exact (Prod.mk.injEq _ _ _ _ ▸ h).2.symm

theorem createDevice_success {m : DeviceManager} {t : List Nat} {u : Nat}
    {id : Nat} {m2 : DeviceManager} (h : createDevice m t u = (some id, m2)) :
    ∃ fac m1,
      ¬ (u = 0 ∨ u > m.config.maxUarts) ∧ isUartAvailable m u = true ∧
      findFactory m (resolveTypeName t) = some fac ∧
      firstNone m.devices = some id ∧
      getSerialForUart m u = some m1 ∧
      m2 = { m1 with
        devices := m1.devices.set id
          (some { typeName := fac, uartIndex := u, running := false }),
        uartAllocation := m1.uartAllocation.set (u - 1) (some id) } := by
  unfold createDevice at h
  by_cases h0 : u = 0 ∨ u > m.config.maxUarts
  · rw [if_pos h0] at h
    simp at h
  rw [if_neg h0] at h
  by_cases h1 : isUartAvailable m u = true
  · rw [if_neg (by simp [h1])] at h
    cases hf : findFactory m (resolveTypeName t) with
    | none =>
      rw [hf] at h
      simp at h
    | some fac =>
      rw [hf] at h
      cases hs : firstNone m.devices with
      | none =>
        rw [hs] at h
        simp at h
      | some slot =>
        rw [hs] at h
        cases hg : getSerialForUart m u with
        | none =>
          rw [hg] at h
          simp at h
        | some m1 =>
          rw [hg] at h
          have h2 := (Prod.mk.injEq _ _ _ _ ▸ h)
          obtain ⟨hid, hm⟩ := h2
          obtain rfl : slot = id := by simpa using hid
          exact ⟨fac, m1, h0, h1, rfl, rfl, rfl, hm.symm⟩
  · rw [if_pos (by simpa using h1)] at h
    simp at h

theorem inv_createDevice (m : DeviceManager) (t : List Nat) (u : Nat)
    (hInv : Inv m) : Inv (createDevice m t u).2 := by
  rcases hr : createDevice m t u with ⟨r, m2⟩
  cases r with
  | none =>
    obtain rfl := createDevice_none hr
    exact hInv
  | some slot =>
    obtain ⟨fac, m1, h0, h1, hf, hs, hg, rfl⟩ := createDevice_success hr
    obtain ⟨hc, hfa, hd, hal⟩ := getSerialForUart_parts hg
    obtain ⟨hu1, hu2, hfree⟩ := isUartAvailable_true h1
    obtain ⟨hslot, hslotnone⟩ := firstNone_some hs
    have hdl : m.devices.length = m.config.maxDevices := hInv.1
    have hul : m.uartAllocation.length = m.config.maxUarts := hInv.2.1
    have hslot1 : slot < m1.devices.length := by
      rw [hd]
      exact hslot
    have hu1lt : u - 1 < m1.uartAllocation.length := by
      rw [hal, hul]
      omega
    refine ⟨?_, ?_, ?_⟩
    · show (m1.devices.set slot _).length = m1.config.maxDevices
      simp only [List.length_set]
      rw [hd, hc, hdl]
    · show (m1.uartAllocation.set (u - 1) (some slot)).length
        = m1.config.maxUarts
      simp only [List.length_set]
      rw [hal, hc, hul]
    · intro j hj
      unfold devOK
      by_cases hjeq : j = slot
      · rw [hjeq]
        have he : devAt { m1 with
            devices := m1.devices.set slot
              (some { typeName := fac, uartIndex := u, running := false }),
            uartAllocation := m1.uartAllocation.set (u - 1) (some slot) } slot
            = some { typeName := fac, uartIndex := u, running := false } := by
          show (m1.devices.set slot _).getD slot none = _
          rw [getD_set_self _ _ _ hslot1]
        rw [he]
        dsimp only
        refine ⟨hu1, ?_, ?_⟩
        · show u ≤ m1.config.maxUarts
          rw [hc]
          exact hu2
        · show (m1.uartAllocation.set (u - 1) (some slot)).getD (u - 1) none
            = some slot
          rw [getD_set_self _ _ _ hu1lt]
      · have he : devAt { m1 with
            devices := m1.devices.set slot
              (some { typeName := fac, uartIndex := u, running := false }),
            uartAllocation := m1.uartAllocation.set (u - 1) (some slot) } j
            = m.devices.getD j none := by
          show (m1.devices.set slot _).getD j none = _
          rw [getD_set_ne _ _ (fun he2 => hjeq he2.symm), hd]
        rw [he]
        cases hdev2 : m.devices.getD j none with
        | none => trivial
        | some d2 =>
          obtain ⟨b1, b2, b3⟩ :=
            inv_link hInv (show devAt m j = some d2 from hdev2)
          have hne : d2.uartIndex - 1 ≠ u - 1 := by
            intro he2
            have heq2 : d2.uartIndex = u := by omega
            rw [heq2] at b3
            rw [b3] at hfree
            simp at hfree
          refine ⟨b1, ?_, ?_⟩
          · show d2.uartIndex ≤ m1.config.maxUarts
            rw [hc]
            exact b2
          · show (m1.uartAllocation.set (u - 1) (some slot)).getD
              (d2.uartIndex - 1) none = some j
            rw [getD_set_ne _ _ (fun he2 => hne he2.symm), hal]
            exact b3

theorem inv_destroyDevice (m : DeviceManager) (id : Nat) (hInv : Inv m) :
    Inv (destroyDevice m id).2 := by
  unfold destroyDevice
  by_cases h0 : id ≥ m.config.maxDevices
  · rw [if_pos h0]
    exact hInv
  rw [if_neg h0]
  cases hd : m.devices.getD id none with
  | none => exact hInv
  | some d =>
    obtain ⟨b1, b2, b3⟩ := inv_link hInv (show devAt m id = some d from hd)
    dsimp only
    rw [if_pos ⟨b1, b2⟩]
    have hdl : m.devices.length = m.config.maxDevices := hInv.1
    have hul : m.uartAllocation.length = m.config.maxUarts := hInv.2.1
    have hidlt : id < m.devices.length :=
      devAt_lt (show devAt m id = some d from hd)
    refine ⟨by simpa using hdl, by simpa using hul, ?_⟩
    intro j hj
    unfold devOK
    by_cases hjeq : j = id
    · rw [hjeq]
      have he : devAt { m with
          uartAllocation := m.uartAllocation.set (d.uartIndex - 1) none,
          devices := m.devices.set id none } id = none := by
        show (m.devices.set id none).getD id none = none
        rw [getD_set_self _ _ _ hidlt]
      rw [he]
      trivial
    · have he : devAt { m with
          uartAllocation := m.uartAllocation.set (d.uartIndex - 1) none,
          devices := m.devices.set id none } j = m.devices.getD j none := by
        show (m.devices.set id none).getD j none = _
        rw [getD_set_ne _ _ (fun he2 => hjeq he2.symm)]
      rw [he]
      cases hdev2 : m.devices.getD j none with
      | none => trivial
      | some d2 =>
        obtain ⟨c1, c2, c3⟩ :=
          inv_link hInv (show devAt m j = some d2 from hdev2)
        have hne : d2.uartIndex - 1 ≠ d.uartIndex - 1 := by
          intro he2
          have heq2 : d2.uartIndex = d.uartIndex := by omega
          rw [heq2] at c3
          rw [c3] at b3
          have : j = id := by simpa using b3
          exact hjeq this
        refine ⟨c1, c2, ?_⟩
        show (m.uartAllocation.set (d.uartIndex - 1) none).getD
          (d2.uartIndex - 1) none = some j
        rw [getD_set_ne _ _ (fun he2 => hne he2.symm)]
        exact c3


theorem getD_set_self_any {α : Type} (l : List α) (i : Nat) (v d : α)
    (h : i < l.length) : (l.set i v).getD i d = v := by
  rw [List.getD_eq_getElem?_getD, List.getElem?_set_self h]
  rfl

theorem inv_mkManager (cfg : DMConfig) : Inv (mkManager cfg) := by
  refine ⟨by simp [mkManager], by simp [mkManager], ?_⟩
  intro i _
  unfold devOK
  have he : devAt (mkManager cfg) i = none := getD_replicate_none _ _
  rw [he]
  trivial

theorem uart_owner_unique {m : DeviceManager} (hInv : Inv m) {i j : Nat}
    {di dj : DevRec} (hi : devAt m i = some di) (hj : devAt m j = some dj)
    (hu : di.uartIndex = dj.uartIndex) : i = j := by
  have bi := (inv_link hInv hi).2.2
  have bj := (inv_link hInv hj).2.2
  rw [hu] at bi
  rw [bi] at bj
  exact Option.some.inj bj

theorem create_busy_after {m : DeviceManager} {t : List Nat} {u id : Nat}
    {m2 : DeviceManager} (hInv : Inv m)
    (hcr : createDevice m t u = (some id, m2)) (t2 : List Nat) :
    createDevice m2 t2 u = (none, m2) := by
  obtain ⟨fac, m1, h0, h1, hf, hs, hg, hm2⟩ := createDevice_success hcr
  obtain ⟨hc, hfa, hd, hal⟩ := getSerialForUart_parts hg
  obtain ⟨hu1, hu2, hfree⟩ := isUartAvailable_true h1
  have hul : m.uartAllocation.length = m.config.maxUarts := hInv.2.1
  have hult : u - 1 < m1.uartAllocation.length := by
    rw [hal, hul]
    omega
  have hc2 : m2.config = m.config := by
    rw [hm2]
    exact hc
  have hb2 : m2.uartAllocation.getD (u - 1) none = some id := by
    rw [hm2]
    show (m1.uartAllocation.set (u - 1) (some id)).getD (u - 1) none = some id
    exact getD_set_self _ _ _ hult
  have hbusy : isUartAvailable m2 u = false := by
    apply isUartAvailable_busy
    rw [hb2]
    simp
  unfold createDevice
  rw [if_neg (show ¬ (u = 0 ∨ u > m2.config.maxUarts) by rw [hc2]; exact h0)]
  rw [if_pos (show ¬ isUartAvailable m2 u = true by simp [hbusy])]

theorem destroyDevice_spec {m : DeviceManager} {id : Nat} {d : DevRec}
    (h0 : ¬ id ≥ m.config.maxDevices)
    (hdev : m.devices.getD id none = some d)
    (hu : 1 ≤ d.uartIndex ∧ d.uartIndex ≤ m.config.maxUarts) :
    destroyDevice m id = (true, { m with
      uartAllocation := m.uartAllocation.set (d.uartIndex - 1) none,
      devices := m.devices.set id none }) := by
  unfold destroyDevice
  rw [if_neg h0, hdev]
  dsimp only
  rw [if_pos hu]

theorem isUartAvailable_again (m mb : DeviceManager) (u : Nat)
    (hcq : mb.config = m.config)
    (ha : mb.uartAllocation.getD (u - 1) none = none)
    (h : isUartAvailable m u = true) : isUartAvailable mb u = true := by
  unfold isUartAvailable at h ⊢
  rw [hcq]
  by_cases h1 : u = 0 ∨ u > m.config.maxUarts
  · rw [if_pos h1] at h
    simp at h
  rw [if_neg h1] at h ⊢
  by_cases h2 : u = 1 ∧ ¬ m.config.hasSerial1 = true
  · rw [if_pos h2] at h
    simp at h
  rw [if_neg h2] at h ⊢
  by_cases h3 : u = 2 ∧ ¬ m.config.hasSerial2 = true
  · rw [if_pos h3] at h
    simp at h
  rw [if_neg h3, ha]
  rfl

theorem getSerialForUart_flag {m : DeviceManager} {u : Nat}
    {m1 : DeviceManager} (hsp : u - 1 < m.serialPorts.length)
    (h : getSerialForUart m u = some m1) :
    m1.serialPorts.getD (u - 1) false = true := by
  unfold getSerialForUart at h
  split_ifs at h with h1 h2 h3
  · obtain rfl : m = m1 := by simpa using h
    exact h2
  · obtain rfl : ({ m with serialPorts := m.serialPorts.set (u - 1) true }
        : DeviceManager) = m1 := by simpa using h
    show (m.serialPorts.set (u - 1) true).getD (u - 1) false = true
    exact getD_set_self_any _ _ _ _ hsp

theorem create_destroy_frees {m : DeviceManager} {t : List Nat} {u id : Nat}
    {m2 : DeviceManager} (hInv : Inv m)
    (hcr : createDevice m t u = (some id, m2))
    (hsp : u - 1 < m.serialPorts.length) :
    (destroyDevice m2 id).1 = true ∧
    isUartAvailable (destroyDevice m2 id).2 u = true ∧
    ∃ id2 m3, createDevice (destroyDevice m2 id).2 t u = (some id2, m3) := by
  obtain ⟨fac, m1, h0, h1, hf, hs, hg, hm2⟩ := createDevice_success hcr
  obtain ⟨hc, hfa, hd, hal⟩ := getSerialForUart_parts hg
  obtain ⟨hu1, hu2, hfree⟩ := isUartAvailable_true h1
  obtain ⟨hid, hidnone⟩ := firstNone_some hs
  have hdl : m.devices.length = m.config.maxDevices := hInv.1
  have hul : m.uartAllocation.length = m.config.maxUarts := hInv.2.1
  have hidlt1 : id < m1.devices.length := by
    rw [hd]
    exact hid
  have hult1 : u - 1 < m1.uartAllocation.length := by
    rw [hal, hul]
    omega
  have hc2 : m2.config = m.config := by
    rw [hm2]
    exact hc
  have hfa2 : m2.factories = m.factories := by
    rw [hm2]
    exact hfa
  have hidlt2 : id < m2.devices.length := by
    rw [hm2]
    show id < (m1.devices.set id
      (some { typeName := fac, uartIndex := u, running := false })).length
    simp only [List.length_set]
    exact hidlt1
  have hult2 : u - 1 < m2.uartAllocation.length := by
    rw [hm2]
    show u - 1 < (m1.uartAllocation.set (u - 1) (some id)).length
    simp only [List.length_set]
    exact hult1
  have hsp2 : m2.serialPorts.getD (u - 1) false = true := by
    rw [hm2]
    show m1.serialPorts.getD (u - 1) false = true
    exact getSerialForUart_flag hsp hg
  have hdev2 : m2.devices.getD id none
      = some { typeName := fac, uartIndex := u, running := false } := by
    rw [hm2]
    show (m1.devices.set id
      (some { typeName := fac, uartIndex := u, running := false })).getD
        id none = _
    exact getD_set_self _ _ _ hidlt1
  have h0d : ¬ id ≥ m2.config.maxDevices := by
    rw [hc2]
    omega
  have hdd : destroyDevice m2 id = (true, { m2 with
      uartAllocation := m2.uartAllocation.set (u - 1) none,
      devices := m2.devices.set id none }) :=
    destroyDevice_spec h0d hdev2 ⟨hu1, by rw [hc2]; exact hu2⟩
  have hc3 : ({ m2 with
      uartAllocation := m2.uartAllocation.set (u - 1) none,
      devices := m2.devices.set id none } : DeviceManager).config
      = m.config := hc2
  have ha3 : ({ m2 with
      uartAllocation := m2.uartAllocation.set (u - 1) none,
      devices := m2.devices.set id none }
      : DeviceManager).uartAllocation.getD (u - 1) none = none := by
    show (m2.uartAllocation.set (u - 1) none).getD (u - 1) none = none
    exact getD_set_self _ _ _ hult2
  have havail : isUartAvailable { m2 with
      uartAllocation := m2.uartAllocation.set (u - 1) none,
      devices := m2.devices.set id none } u = true :=
    isUartAvailable_again m _ u hc3 ha3 h1
  refine ⟨by rw [hdd], ?_, ?_⟩
  · rw [hdd]
    exact havail
  · rw [hdd]
    have hff3 : findFactory { m2 with
        uartAllocation := m2.uartAllocation.set (u - 1) none,
        devices := m2.devices.set id none } (resolveTypeName t)
        = some fac := by
      unfold findFactory at hf ⊢
      show m2.factories.find? _ = _
      rw [hfa2]
      exact hf
    obtain ⟨s2, hs2⟩ := firstNone_of_slot
      (show id < (m2.devices.set id none).length by
        simp only [List.length_set]
        exact hidlt2)
      (show (m2.devices.set id none).getD id none = none from
        getD_set_self _ _ _ hidlt2)
    have hgs3 : getSerialForUart { m2 with
        uartAllocation := m2.uartAllocation.set (u - 1) none,
        devices := m2.devices.set id none } u
        = some { m2 with
          uartAllocation := m2.uartAllocation.set (u - 1) none,
          devices := m2.devices.set id none } := by
      unfold getSerialForUart
      rw [if_neg (show ¬ (u = 0 ∨ u > ({ m2 with
        uartAllocation := m2.uartAllocation.set (u - 1) none,
        devices := m2.devices.set id none }
        : DeviceManager).config.maxUarts) by rw [hc3]; exact h0)]
      rw [if_pos (show ({ m2 with
        uartAllocation := m2.uartAllocation.set (u - 1) none,
        devices := m2.devices.set id none }
        : DeviceManager).serialPorts.getD (u - 1) false = true from hsp2)]
    refine ⟨s2, ({
      config := m2.config,
      factories := m2.factories,
      devices := (m2.devices.set id none).set s2
        (some { typeName := fac, uartIndex := u, running := false }),
      uartAllocation :=
        (m2.uartAllocation.set (u - 1) none).set (u - 1) (some s2),
      serialPorts := m2.serialPorts } : DeviceManager), ?_⟩
    unfold createDevice
    rw [if_neg (show ¬ (u = 0 ∨ u > ({ m2 with
      uartAllocation := m2.uartAllocation.set (u - 1) none,
      devices := m2.devices.set id none }
      : DeviceManager).config.maxUarts) by rw [hc3]; exact h0)]
    rw [if_neg (show ¬ ¬ isUartAvailable { m2 with
      uartAllocation := m2.uartAllocation.set (u - 1) none,
      devices := m2.devices.set id none } u = true by simp [havail])]
    rw [hff3]
    rw [show firstNone ({ m2 with
      uartAllocation := m2.uartAllocation.set (u - 1) none,
      devices := m2.devices.set id none } : DeviceManager).devices
      = some s2 from hs2]
    rw [hgs3]



/-- A small concrete manager configuration used to exercise the UART
exclusivity theorem: two UARTs (both with platform serial support), two
device slots, and one registered factory named `a`. -/
def mgrW : DeviceManager where
  config := {
    maxUarts := 2,
    hasSerial1 := true,
    hasSerial2 := true,
    maxDevices := 2,
    maxFactories := 4 }
  factories := [[97]]
  devices := [none, none]
  uartAllocation := [none, none]
  serialPorts := [false, false]

/-- C2: UART exclusivity in the device manager.  (1) The freshly
constructed manager satisfies the ownership invariant `Inv` (well-sized
tables, and every live device slot holds a 1-based in-range UART index
whose allocation entry points back at that slot); (2,3) `createDevice`
and `destroyDevice` preserve `Inv`, so it holds of every manager
reachable from `mkManager`; (4) under `Inv`, two live device slots with
the same UART index are the same slot — at most one device owns a given
UART; (5) after `createDevice` succeeds on UART `u`, any subsequent
`createDevice` on `u` (any type) returns the invalid-id sentinel
(`none`, modelling `0xFF`) and leaves the manager unchanged; (6) after
destroying that device the destroy call reports success, UART `u` is
available again, and a `createDevice` on `u` succeeds again (given the
platform serial-port table covers `u`). -/
theorem c2_uart_exclusive :
    (∀ cfg, Inv (mkManager cfg)) ∧
    (∀ m t u, Inv m → Inv (createDevice m t u).2) ∧
    (∀ m i, Inv m → Inv (destroyDevice m i).2) ∧
    (∀ m i j di dj, Inv m → devAt m i = some di → devAt m j = some dj →
      di.uartIndex = dj.uartIndex → i = j) ∧
    (∀ m t u id m2, Inv m → createDevice m t u = (some id, m2) →
      ∀ t2, createDevice m2 t2 u = (none, m2)) ∧
    (∀ m t u id m2, Inv m → createDevice m t u = (some id, m2) →
      u - 1 < m.serialPorts.length →
      (destroyDevice m2 id).1 = true ∧
      isUartAvailable (destroyDevice m2 id).2 u = true ∧
      ∃ id2 m3, createDevice (destroyDevice m2 id).2 t u = (some id2, m3)) :=
  ⟨inv_mkManager,
   fun m t u h => inv_createDevice m t u h,
   fun m i h => inv_destroyDevice m i h,
   fun _ _ _ _ _ h hi hj hu => uart_owner_unique h hi hj hu,
   fun _ _ _ _ _ h hcr t2 => create_busy_after h hcr t2,
   fun _ _ _ _ _ h hcr hsp => create_destroy_frees h hcr hsp⟩

/-- Witness for C2 on the concrete manager `mgrW`: creating a device on
UART 1 succeeds with id 0, a second create on UART 1 is rejected without
changing the manager, and destroying device 0 frees UART 1 so a further
create succeeds. -/
theorem c2_uart_exclusive_witness :
    Inv mgrW ∧
    createDevice (createDevice mgrW [97] 1).2 [98] 1
      = (none, (createDevice mgrW [97] 1).2) ∧
    (destroyDevice (createDevice mgrW [97] 1).2 0).1 = true ∧
    isUartAvailable (destroyDevice (createDevice mgrW [97] 1).2 0).2 1
      = true ∧
    ∃ id2 m3,
      createDevice (destroyDevice (createDevice mgrW [97] 1).2 0).2 [97] 1
        = (some id2, m3) := by
  have hInv : Inv mgrW := by decide
  have hcr : createDevice mgrW [97] 1
      = (some 0, (createDevice mgrW [97] 1).2) := by decide
  have h6 := c2_uart_exclusive.2.2.2.2.2 mgrW [97] 1 0
    (createDevice mgrW [97] 1).2 hInv hcr (by decide)
  exact ⟨hInv,
    c2_uart_exclusive.2.2.2.2.1 mgrW [97] 1 0
      (createDevice mgrW [97] 1).2 hInv hcr [98],
    h6.1, h6.2.1, h6.2.2⟩


end SerEmu
